import Mathlib

/-!
Verification development for the SOE rotation-builder core: a shallow
embedding of `src/conditions.py`, `src/spell_data.py`, `src/core/rotation.py`
and `src/core/exporter.py`, together with theorems settling the frozen
claims about the condition validator, the rotation priority model and the
multi-format codec.

Conventions of the embedding:
* Python strings are `String` / `List Char`; helpers named `py*` model the
  corresponding Python `str` primitives.
* Python `time.time()` is threaded explicitly as an integer `now` argument
  wherever the source calls it.
* A Python method that can raise returns `Except`; where a claim is about
  the state left behind by a raising method, the error value carries the
  state as it stands at the point of the raise.
-/

/-- Python `\s` (and the default `str.strip` character class), restricted to
the ASCII whitespace characters Python treats as such. -/
def pyWs (c : Char) : Bool :=
  c = ' ' || c = '\t' || c = '\n' || c = '\r' || c = '\x0b' || c = '\x0c'

/-- Python `str.strip()`: drop leading and trailing whitespace. -/
def pyStrip (l : List Char) : List Char :=
  ((l.dropWhile pyWs).reverse.dropWhile pyWs).reverse

/-- Python `sub in hay` on strings: substring containment. -/
def hasSubstr (hay sub : List Char) : Bool :=
  match hay with
  | [] => sub.isEmpty
  | _ :: t => sub.isPrefixOf hay || hasSubstr t sub

/-- Python `s.split(sep)[0]` for a single one-or-more-character separator:
the prefix of `l` that comes before the first occurrence of `sub`
(all of `l` when `sub` does not occur). -/
def splitFirst (sub : List Char) : List Char → List Char
  | [] => []
  | c :: t => if sub.isPrefixOf (c :: t) then [] else c :: splitFirst sub t

def pySplitCharAux (sep : Char) (acc : List Char) : List Char → List (List Char)
  | [] => [acc.reverse]
  | c :: t => if c = sep then acc.reverse :: pySplitCharAux sep [] t
              else pySplitCharAux sep (c :: acc) t

/-- Python `s.split(c)` for a single-character separator: all fields,
empty fields preserved. -/
def pySplitChar (sep : Char) (l : List Char) : List (List Char) :=
  pySplitCharAux sep [] l

/-- Python `int(s)` with `ValueError` as `none`: optional surrounding
whitespace, optional sign, one or more ASCII digits (the digit-group
underscores Python also tolerates never occur in the codec's output). -/
def pySign : List Char → Bool × List Char
  | '-' :: t => (true, t)
  | '+' :: t => (false, t)
  | t => (false, t)

def pyInt (s : String) : Option Int :=
  let l := pyStrip s.data
  let signDigits := pySign l
  let ds := signDigits.2
  if ds.isEmpty || !ds.all Char.isDigit then none
  else
    let n : Nat := ds.foldl (fun acc c => acc * 10 + (c.toNat - '0'.toNat)) 0
    some (if signDigits.1 then -(n : Int) else (n : Int))

/-- The decimal digits of `n` (most significant first); `fuel` bounds the
recursion and any `fuel > n` is enough. -/
def natDigitsAux : Nat → Nat → List Char
  | 0, _ => []
  | fuel + 1, n =>
    if n < 10 then [Nat.digitChar n]
    else natDigitsAux fuel (n / 10) ++ [Nat.digitChar (n % 10)]

/-- Python `str(n)` for a natural number. -/
def pyStrNat (n : Nat) : String :=
  String.mk (natDigitsAux (n + 1) n)

/-- Python `str(i)` for an integer: the usual decimal rendering. -/
def pyStrInt (i : Int) : String :=
  if i < 0 then "-" ++ pyStrNat i.natAbs else pyStrNat i.toNat

def matchSplitAfterOp (r2 : List Char) : Option (List Char) :=
  match r2 with
  | d :: _ => if pyWs d then some (r2.dropWhile pyWs) else none
  | [] => none

/-- One attempted match of the regex `\s+(?:&&|\|\|)\s+` anchored at the head
of `l`: on success, returns the input remaining after the (greedy) match.
The operator must sit at the end of the maximal whitespace run (`&` and `|`
are not whitespace, so the regex engine's backtracking cannot place it
anywhere else), and at least one whitespace character must follow. -/
def matchSplitAt (l : List Char) : Option (List Char) :=
  match l with
  | [] => none
  | c :: _ =>
    if pyWs c then
      match l.dropWhile pyWs with
      | '&' :: '&' :: r2 => matchSplitAfterOp r2
      | '|' :: '|' :: r2 => matchSplitAfterOp r2
      | _ => none
    else none

/-- Python `re.split(r'\s+(?:&&|\|\|)\s+', s)`: split on logical operators
surrounded by whitespace.  `fuel` bounds the recursion; it is consumed at
most one unit per input position and the callers pass the input length,
which is always enough (the `splitLogicalAux` walk lemmas below track it). -/
def splitLogicalAux : Nat → List Char → List Char → List (List Char)
  | _, acc, [] => [acc.reverse]
  | 0, acc, rest => [acc.reverse ++ rest]
  | fuel + 1, acc, c :: t =>
    match matchSplitAt (c :: t) with
    | some rem => acc.reverse :: splitLogicalAux fuel [] rem
    | none => splitLogicalAux fuel (c :: acc) t

def splitLogical (l : List Char) : List (List Char) :=
  splitLogicalAux l.length [] l

namespace ConditionValidator

/-- `ConditionValidator.BASIC_CONDITIONS`: category → (subcategory →
description).  Dict iteration order follows the source's insertion order. -/
def BASIC_CONDITIONS : List (String × List (String × String)) :=
  [ ("player",
     [ ("health", "Player's health percentage"),
       ("health.actual", "Player's actual health value"),
       ("health.max", "Player's maximum health"),
       ("mana", "Player's mana percentage"),
       ("rage", "Player's rage amount"),
       ("energy", "Player's energy amount"),
       ("focus", "Player's focus amount"),
       ("runicpower", "Player's runic power amount"),
       ("holypower", "Player's holy power amount"),
       ("chi", "Player's chi amount"),
       ("soulshards", "Player's soul shards amount"),
       ("eclipse", "Player's eclipse value"),
       ("combopoints", "Player's combo points"),
       ("buff", "Check if player has a specific buff"),
       ("buff.any", "Check if player has any of several buffs"),
       ("buff.count", "Stack count of a buff"),
       ("buff.duration", "Remaining duration of a buff"),
       ("debuff", "Check if player has a specific debuff"),
       ("debuff.any", "Check if player has any of several debuffs"),
       ("debuff.count", "Stack count of a debuff"),
       ("debuff.duration", "Remaining duration of a debuff"),
       ("moving", "Check if player is moving"),
       ("movingfor", "Time player has been moving"),
       ("casting", "Check if player is casting"),
       ("casting.percent", "Percentage of cast completed"),
       ("casting.delta", "Time left on current cast"),
       ("channeling", "Check if player is channeling"),
       ("stance", "Current stance (Warrior)"),
       ("form", "Current form (Druid)"),
       ("seal", "Current seal (Paladin)"),
       ("lastcast", "Last spell cast"),
       ("level", "Player's level"),
       ("spec", "Current specialization"),
       ("talent", "Check if player has a specific talent"),
       ("glyph", "Check if player has a specific glyph") ]),
    ("target",
     [ ("health", "Target's health percentage"),
       ("health.actual", "Target's actual health value"),
       ("health.max", "Target's maximum health"),
       ("exists", "Check if target exists"),
       ("enemy", "Check if target is hostile"),
       ("friend", "Check if target is friendly"),
       ("name", "Target's name"),
       ("distance", "Distance to target in yards"),
       ("range", "Check if target is in range"),
       ("debuff", "Check if target has a specific debuff"),
       ("debuff.any", "Check if target has any of several debuffs"),
       ("debuff.count", "Stack count of a debuff"),
       ("debuff.duration", "Remaining duration of a debuff"),
       ("casting", "Check if target is casting"),
       ("casting.percent", "Percentage of cast completed"),
       ("casting.delta", "Time left on current cast"),
       ("interruptsat", "Percentage when cast can be interrupted"),
       ("moving", "Check if target is moving"),
       ("level", "Target's level"),
       ("classification", "Target's classification (normal, elite, rare, etc.)"),
       ("creatureType", "Target's creature type"),
       ("boss", "Check if target is a boss"),
       ("id", "Target's ID"),
       ("threat", "Threat percentage on target"),
       ("isplayer", "Check if target is a player") ]),
    ("spell",
     [ ("cooldown", "Cooldown time remaining"),
       ("charges", "Number of charges available"),
       ("usable", "Check if spell is usable"),
       ("exists", "Check if spell exists in spellbook"),
       ("range", "Check if target is in range of spell"),
       ("casted", "Check if spell was cast recently") ]),
    ("area",
     [ ("enemies", "Number of enemies in an area"),
       ("friendly", "Number of friendly units in an area") ]),
    ("group",
     [ ("members", "Number of group members"),
       ("avghealth", "Average health percentage of the group"),
       ("raid", "Check if in a raid"),
       ("party", "Check if in a party") ]),
    ("toggle",
     [ ("cooldowns", "Check if cooldowns are enabled"),
       ("aoe", "Check if AoE is enabled"),
       ("interrupt", "Check if interrupts are enabled"),
       ("custom", "Check custom toggle state") ]),
    ("modifier",
     [ ("shift", "Check if shift is held"),
       ("control", "Check if control is held"),
       ("alt", "Check if alt is held"),
       ("lshift", "Check if left shift is held"),
       ("lcontrol", "Check if left control is held"),
       ("lalt", "Check if left alt is held"),
       ("rshift", "Check if right shift is held"),
       ("rcontrol", "Check if right control is held"),
       ("ralt", "Check if right alt is held") ]) ]

/-- `ConditionValidator.CLASS_CONDITIONS`. -/
def CLASS_CONDITIONS : List (String × List (String × String)) :=
  [ ("Druid",
     [ ("solar", "Solar energy amount"),
       ("lunar", "Lunar energy amount"),
       ("eclipse", "Eclipse direction/value"),
       ("balance.sun", "In Solar Eclipse"),
       ("balance.moon", "In Lunar Eclipse"),
       ("mushrooms", "Active mushrooms count") ]),
    ("Death Knight",
     [ ("runes.count", "Available runes count"),
       ("runes.frac", "Fractional runes"),
       ("runes.depleted", "Depleted runes count") ]),
    ("Warlock",
     [ ("embers", "Burning Embers count"),
       ("demonicfury", "Demonic Fury amount") ]) ]

def OPERATORS : List String :=
  [">", "<", ">=", "<=", "==", "!=", "&&", "||", "!"]

/-- Characters admitted by `_check_basic_syntax`'s `valid_chars` set. -/
def validChar (c : Char) : Bool :=
  c.isAlpha || c.isDigit ||
    ['.', '_', '(', ')', '!', '&', '|', '<', '>', '=', ' '].contains c

/-- `ConditionValidator._check_basic_syntax`. -/
def check_basic_syntax (cond : List Char) : Bool :=
  if hasSubstr cond [' ', ' '] then false
  else cond.all validChar

def invalid_combinations : List String :=
  ["&&&&", "||||", "!!", "<<", ">>", "==>", "<=="]

/-- `ConditionValidator._validate_operators`. -/
def validate_operators (cond : List Char) : Bool :=
  if invalid_combinations.any (fun combo => hasSubstr cond combo.data) then false
  else OPERATORS.all (fun op =>
    !hasSubstr cond op.data ||
      (hasSubstr cond (' ' :: (op.data ++ [' '])) || (op.data ++ [' ']).isPrefixOf cond))

def parenGo (stack : List Char) : List Char → Bool
  | [] => stack.isEmpty
  | c :: t =>
    if c = '(' then parenGo ('(' :: stack) t
    else if c = ')' then
      match stack with
      | [] => false
      | _ :: s => parenGo s t
    else parenGo stack t

/-- `ConditionValidator._validate_parentheses`. -/
def validate_parentheses (cond : List Char) : Bool :=
  parenGo [] cond

def lookupCategory (name : String) : Option (List (String × String)) :=
  (BASIC_CONDITIONS.find? (fun p => p.1 == name)).map (·.2)

/-- The per-component body of `_validate_components`'s loop: strip a leading
`!`, cut the base before the first `(`, `>`, `<`, `==`, `!=` (each cut is
applied to the running `base` but guarded by an occurrence test on the
component, exactly as in the source), then look up
`category.subcategory`. -/
def componentOk (component : List Char) : Bool :=
  let component := if component.head? = some '!' then component.tail else component
  let base := if hasSubstr component ['('] then splitFirst ['('] component else component
  let base := if hasSubstr component ['>'] then splitFirst ['>'] base else base
  let base := if hasSubstr component ['<'] then splitFirst ['<'] base else base
  let base := if hasSubstr component ['=', '='] then splitFirst ['=', '='] base else base
  let base := if hasSubstr component ['!', '='] then splitFirst ['!', '='] base else base
  match pySplitChar '.' base with
  | p0 :: p1 :: _ =>
    match lookupCategory (String.mk p0) with
    | none => false
    | some subs => subs.any (fun kv => kv.1 == String.mk p1)
  | _ => false

/-- `ConditionValidator._validate_components`. -/
def validate_components (cond : List Char) : Bool :=
  (splitLogical cond).all componentOk

/-- `ConditionValidator.validate_condition`.  The four checks are total
functions (no operation in them can raise), so the source's `except` arm —
which would report `"Validation error: ..."` — is unreachable and has no
counterpart here; `validate_never_raises` makes this explicit. -/
def validate_condition (condition : String) : Bool × String :=
  if condition.data.isEmpty || pyStrip condition.data = "true".data then (true, "")
  else
    let cond := pyStrip condition.data
    if ! check_basic_syntax cond then (false, "Invalid condition syntax")
    else if !validate_operators cond then (false, "Invalid operator usage")
    else if !validate_parentheses cond then (false, "Mismatched parentheses")
    else if !validate_components cond then (false, "Invalid condition components")
    else (true, "")

end ConditionValidator

namespace spell_data

/-- Association-list lookup, modelling Python `dict` indexing with `in`
membership (insertion order preserved). -/
def dictGet (l : List (String × α)) (key : String) : Option α :=
  (l.find? (fun p => p.1 == key)).map (·.2)

/-- `spell_data.SPEC_IDS`. -/
def SPEC_IDS : List (String × List (String × Int)) :=
  [ ("Mage", [("Arcane", 62), ("Fire", 63), ("Frost", 64)]),
    ("Paladin", [("Holy", 65), ("Protection", 66), ("Retribution", 70)]),
    ("Warrior", [("Arms", 71), ("Fury", 72), ("Protection", 73)]),
    ("Druid", [("Balance", 102), ("Feral", 103), ("Guardian", 104), ("Restoration", 105)]),
    ("Death Knight", [("Blood", 250), ("Frost", 251), ("Unholy", 252)]),
    ("Hunter", [("Beast Mastery", 253), ("Marksmanship", 254), ("Survival", 255)]),
    ("Priest", [("Discipline", 256), ("Holy", 257), ("Shadow", 258)]),
    ("Rogue", [("Assassination", 259), ("Combat", 260), ("Subtlety", 261)]),
    ("Shaman", [("Elemental", 262), ("Enhancement", 263), ("Restoration", 264)]),
    ("Warlock", [("Affliction", 265), ("Demonology", 266), ("Destruction", 267)]),
    ("Monk", [("Brewmaster", 268), ("Windwalker", 269), ("Mistweaver", 270)]) ]

/-- `spell_data.get_spec_id`. -/
def get_spec_id (class_name spec_name : String) : Option Int :=
  match dictGet SPEC_IDS class_name with
  | none => none
  | some specs => dictGet specs spec_name

/-- Python `<` on strings: code-point lexicographic order. -/
def strLtChars : List Char → List Char → Bool
  | [], [] => false
  | [], _ :: _ => true
  | _ :: _, [] => false
  | c :: cs, d :: ds => if c < d then true else if d < c then false else strLtChars cs ds

def strLt (a b : String) : Bool :=
  strLtChars a.data b.data

/-- Ascending insertion of a string into a sorted list, used to model
Python `sorted` on distinct strings (code-point lexicographic order). -/
def strInsert (a : String) : List String → List String
  | [] => [a]
  | b :: t => if strLt a b then a :: b :: t else b :: strInsert a t

/-- Python `sorted` on a list of (distinct) strings. -/
def pySorted (l : List String) : List String :=
  l.foldr strInsert []

/-- `spell_data.SPELL_DATA`: class → spec → spell list (source order). -/
def SPELL_DATA : List (String × List (String × List String)) :=
  [ ("Mage",
     [ ("Arcane",
        ["Arcane Blast", "Arcane Missiles", "Arcane Barrage", "Arcane Power",
         "Arcane Brilliance", "Evocation", "Blink", "Frost Nova", "Slow",
         "Presence of Mind", "Time Warp", "Mirror Image", "Invisibility",
         "Conjure Mana Gem", "Arcane Explosion", "Counterspell", "Spellsteal",
         "Remove Curse", "Flamestrike", "Polymorph", "Ice Block"]),
       ("Fire",
        ["Fireball", "Pyroblast", "Fire Blast", "Flamestrike", "Combustion",
         "Dragon's Breath", "Scorch", "Living Bomb", "Blast Wave", "Molten Armor",
         "Arcane Brilliance", "Evocation", "Blink", "Frost Nova", "Mirror Image",
         "Time Warp", "Invisibility", "Conjure Mana Gem", "Counterspell", "Spellsteal",
         "Remove Curse", "Polymorph", "Ice Block"]),
       ("Frost",
        ["Frostbolt", "Ice Lance", "Frost Nova", "Blizzard", "Frozen Orb",
         "Icy Veins", "Cone of Cold", "Frostfire Bolt", "Ice Barrier", "Cold Snap",
         "Frost Armor", "Arcane Brilliance", "Evocation", "Blink", "Mirror Image",
         "Time Warp", "Invisibility", "Conjure Mana Gem", "Counterspell", "Spellsteal",
         "Remove Curse", "Polymorph", "Ice Block"]) ]),
    ("Paladin",
     [ ("Holy",
        ["Holy Light", "Divine Light", "Holy Shock", "Word of Glory", "Holy Radiance",
         "Light of Dawn", "Beacon of Light", "Divine Shield", "Divine Protection",
         "Lay on Hands", "Blessing of Kings", "Blessing of Might", "Hand of Protection",
         "Hand of Freedom", "Hand of Sacrifice", "Hand of Salvation", "Devotion Aura",
         "Holy Prism", "Judgment", "Hammer of Justice", "Turn Evil", "Divine Plea"]),
       ("Protection",
        ["Shield of the Righteous", "Avenger's Shield", "Consecration", "Hammer of the Righteous",
         "Judgment", "Holy Wrath", "Word of Glory", "Guardian of Ancient Kings", "Divine Protection",
         "Ardent Defender", "Divine Shield", "Blessing of Kings", "Blessing of Might",
         "Hand of Protection", "Hand of Freedom", "Hand of Sacrifice", "Hand of Salvation",
         "Devotion Aura", "Light's Hammer", "Hammer of Justice", "Turn Evil", "Divine Plea"]),
       ("Retribution",
        ["Templar's Verdict", "Crusader Strike", "Hammer of Wrath", "Judgment", "Exorcism",
         "Inquisition", "Execution Sentence", "Avenging Wrath", "Divine Shield", "Divine Protection",
         "Blessing of Kings", "Blessing of Might", "Hand of Protection", "Hand of Freedom",
         "Hand of Sacrifice", "Hand of Salvation", "Devotion Aura", "Hammer of Justice",
         "Turn Evil", "Divine Plea"]) ]),
    ("Warrior",
     [ ("Arms",
        ["Mortal Strike", "Overpower", "Slam", "Execute", "Colossus Smash",
         "Rend", "Thunder Clap", "Sweeping Strikes", "Bladestorm", "Die by the Sword",
         "Battle Shout", "Commanding Shout", "Charge", "Heroic Leap", "Hamstring",
         "Rallying Cry", "Intervene", "Spell Reflection", "Shield Wall", "Pummel",
         "Intimidating Shout", "Berserker Rage", "Victory Rush"]),
       ("Fury",
        ["Bloodthirst", "Wild Strike", "Raging Blow", "Execute", "Colossus Smash",
         "Thunder Clap", "Whirlwind", "Berserker Rage", "Recklessness", "Battle Shout",
         "Commanding Shout", "Charge", "Heroic Leap", "Hamstring", "Rallying Cry",
         "Intervene", "Spell Reflection", "Shield Wall", "Pummel", "Intimidating Shout",
         "Victory Rush"]),
       ("Protection",
        ["Shield Slam", "Revenge", "Thunder Clap", "Devastate", "Shield Block",
         "Shield Barrier", "Demoralizing Shout", "Last Stand", "Shield Wall", "Battle Shout",
         "Commanding Shout", "Charge", "Heroic Leap", "Intervene", "Spell Reflection",
         "Pummel", "Intimidating Shout", "Berserker Rage", "Victory Rush"]) ]),
    ("Druid",
     [ ("Balance",
        ["Wrath", "Starfire", "Starsurge", "Moonfire", "Sunfire", "Starfall",
         "Hurricane", "Wild Mushroom", "Wild Mushroom: Detonate", "Celestial Alignment",
         "Force of Nature", "Faerie Fire", "Barkskin", "Innervate", "Mark of the Wild",
         "Rebirth", "Tranquility", "Cyclone", "Entangling Roots", "Hibernate",
         "Solar Beam", "Typhoon", "Nature's Swiftness", "Symbiosis"]),
       ("Feral",
        ["Shred", "Rake", "Rip", "Ferocious Bite", "Savage Roar", "Tiger's Fury",
         "Berserk", "Cat Form", "Maim", "Faerie Fire", "Barkskin", "Innervate",
         "Mark of the Wild", "Rebirth", "Tranquility", "Cyclone", "Entangling Roots",
         "Hibernate", "Skull Bash", "Nature's Swiftness", "Symbiosis"]),
       ("Guardian",
        ["Mangle", "Maul", "Lacerate", "Thrash", "Savage Defense", "Frenzied Regeneration",
         "Survival Instincts", "Bear Form", "Incarnation: Son of Ursoc", "Faerie Fire",
         "Barkskin", "Innervate", "Mark of the Wild", "Rebirth", "Tranquility",
         "Cyclone", "Entangling Roots", "Hibernate", "Skull Bash", "Nature's Swiftness",
         "Symbiosis"]),
       ("Restoration",
        ["Rejuvenation", "Healing Touch", "Regrowth", "Lifebloom", "Wild Growth",
         "Swiftmend", "Tranquility", "Wild Mushroom", "Wild Mushroom: Bloom",
         "Nature's Swiftness", "Ironbark", "Innervate", "Barkskin", "Mark of the Wild",
         "Rebirth", "Cyclone", "Entangling Roots", "Hibernate", "Symbiosis"]) ]),
    ("Death Knight",
     [ ("Blood",
        ["Death Strike", "Heart Strike", "Blood Boil", "Outbreak", "Soul Reaper",
         "Dancing Rune Weapon", "Rune Tap", "Vampiric Blood", "Icebound Fortitude",
         "Anti-Magic Shell", "Death Grip", "Mind Freeze", "Strangulate", "Army of the Dead",
         "Raise Dead", "Dark Command", "Death's Advance", "Empower Rune Weapon", "Horn of Winter"]),
       ("Frost",
        ["Obliterate", "Frost Strike", "Howling Blast", "Outbreak", "Soul Reaper",
         "Pillar of Frost", "Remorseless Winter", "Icebound Fortitude", "Anti-Magic Shell",
         "Death Grip", "Mind Freeze", "Strangulate", "Army of the Dead", "Raise Dead",
         "Dark Command", "Death's Advance", "Empower Rune Weapon", "Horn of Winter"]),
       ("Unholy",
        ["Scourge Strike", "Death Coil", "Festering Strike", "Outbreak", "Soul Reaper",
         "Dark Transformation", "Summon Gargoyle", "Icebound Fortitude", "Anti-Magic Shell",
         "Death Grip", "Mind Freeze", "Strangulate", "Army of the Dead", "Raise Dead",
         "Dark Command", "Death's Advance", "Empower Rune Weapon", "Horn of Winter"]) ]),
    ("Hunter",
     [ ("Beast Mastery",
        ["Arcane Shot", "Steady Shot", "Kill Command", "Focus Fire", "Bestial Wrath",
         "Dire Beast", "Multi-Shot", "Cobra Shot", "Rapid Fire", "Disengage",
         "Deterrence", "Concussive Shot", "Freezing Trap", "Snake Trap", "Explosive Trap",
         "Ice Trap", "Flare", "Feign Death", "Misdirection", "Tranquilizing Shot",
         "Counter Shot", "Aspect of the Hawk", "Aspect of the Cheetah", "Aspect of the Pack"]),
       ("Marksmanship",
        ["Chimera Shot", "Steady Shot", "Aimed Shot", "Arcane Shot", "Murder of Crows",
         "Multi-Shot", "Rapid Fire", "Disengage", "Deterrence", "Concussive Shot",
         "Freezing Trap", "Snake Trap", "Explosive Trap", "Ice Trap", "Flare",
         "Feign Death", "Misdirection", "Tranquilizing Shot", "Counter Shot",
         "Aspect of the Hawk", "Aspect of the Cheetah", "Aspect of the Pack"]),
       ("Survival",
        ["Explosive Shot", "Black Arrow", "Serpent Sting", "Arcane Shot", "Multi-Shot",
         "Cobra Shot", "Rapid Fire", "Disengage", "Deterrence", "Concussive Shot",
         "Freezing Trap", "Snake Trap", "Explosive Trap", "Ice Trap", "Flare",
         "Feign Death", "Misdirection", "Tranquilizing Shot", "Counter Shot",
         "Aspect of the Hawk", "Aspect of the Cheetah", "Aspect of the Pack"]) ]),
    ("Priest",
     [ ("Discipline",
        ["Power Word: Shield", "Penance", "Prayer of Mending", "Flash Heal", "Greater Heal",
         "Prayer of Healing", "Power Word: Barrier", "Pain Suppression", "Spirit Shell",
         "Divine Aegis", "Inner Focus", "Archangel", "Dispel Magic", "Mass Dispel",
         "Purify", "Leap of Faith", "Fear Ward", "Fade", "Psychic Scream", "Power Word: Fortitude",
         "Divine Hymn", "Holy Fire", "Smite"]),
       ("Holy",
        ["Heal", "Flash Heal", "Greater Heal", "Binding Heal", "Prayer of Mending",
         "Prayer of Healing", "Circle of Healing", "Holy Word: Sanctuary", "Divine Hymn",
         "Guardian Spirit", "Renew", "Chakra", "Dispel Magic", "Mass Dispel", "Purify",
         "Leap of Faith", "Fear Ward", "Fade", "Psychic Scream", "Power Word: Fortitude",
         "Holy Fire", "Smite"]),
       ("Shadow",
        ["Mind Blast", "Mind Flay", "Shadow Word: Pain", "Vampiric Touch", "Devouring Plague",
         "Mind Spike", "Shadow Word: Death", "Shadowfiend", "Dispersion", "Psychic Horror",
         "Dispel Magic", "Mass Dispel", "Leap of Faith", "Fear Ward", "Fade",
         "Psychic Scream", "Power Word: Fortitude", "Shadow Word: Insanity"]) ]),
    ("Rogue",
     [ ("Assassination",
        ["Mutilate", "Envenom", "Dispatch", "Rupture", "Garrote", "Vendetta",
         "Fan of Knives", "Crimson Tempest", "Slice and Dice", "Recuperate", "Sprint",
         "Vanish", "Cloak of Shadows", "Evasion", "Combat Readiness", "Shadow Step",
         "Feint", "Kick", "Blind", "Tricks of the Trade", "Kidney Shot", "Cheap Shot",
         "Sap", "Distract", "Stealth"]),
       ("Combat",
        ["Sinister Strike", "Eviscerate", "Revealing Strike", "Slice and Dice",
         "Adrenaline Rush", "Killing Spree", "Blade Flurry", "Fan of Knives",
         "Crimson Tempest", "Recuperate", "Sprint", "Vanish", "Cloak of Shadows",
         "Evasion", "Combat Readiness", "Feint", "Kick", "Blind", "Tricks of the Trade",
         "Kidney Shot", "Cheap Shot", "Sap", "Distract", "Stealth"]),
       ("Subtlety",
        ["Backstab", "Hemorrhage", "Eviscerate", "Rupture", "Shadow Dance", "Premeditation",
         "Ambush", "Fan of Knives", "Crimson Tempest", "Slice and Dice", "Recuperate",
         "Sprint", "Vanish", "Cloak of Shadows", "Evasion", "Combat Readiness",
         "Shadow Step", "Feint", "Kick", "Blind", "Tricks of the Trade", "Kidney Shot",
         "Cheap Shot", "Sap", "Distract", "Stealth"]) ]),
    ("Shaman",
     [ ("Elemental",
        ["Lightning Bolt", "Chain Lightning", "Earth Shock", "Flame Shock", "Lava Burst",
         "Earthquake", "Elemental Blast", "Thunderstorm", "Ascendance", "Spiritwalker's Grace",
         "Fire Elemental Totem", "Earth Elemental Totem", "Healing Stream Totem",
         "Healing Tide Totem", "Grounding Totem", "Capacitor Totem", "Wind Shear",
         "Ghost Wolf", "Water Walking", "Water Breathing"]),
       ("Enhancement",
        ["Stormstrike", "Lava Lash", "Earth Shock", "Flame Shock", "Lightning Bolt",
         "Searing Totem", "Feral Spirit", "Ascendance", "Fire Elemental Totem",
         "Earth Elemental Totem", "Healing Stream Totem", "Healing Tide Totem",
         "Grounding Totem", "Capacitor Totem", "Wind Shear", "Ghost Wolf", "Water Walking",
         "Water Breathing"]),
       ("Restoration",
        ["Healing Wave", "Healing Surge", "Greater Healing Wave", "Chain Heal",
         "Riptide", "Healing Rain", "Healing Stream Totem", "Healing Tide Totem",
         "Spirit Link Totem", "Ascendance", "Spiritwalker's Grace", "Earth Shield",
         "Water Shield", "Grounding Totem", "Capacitor Totem", "Wind Shear", "Ghost Wolf",
         "Water Walking", "Water Breathing"]) ]),
    ("Warlock",
     [ ("Affliction",
        ["Agony", "Corruption", "Unstable Affliction", "Malefic Grasp", "Haunt",
         "Drain Soul", "Seed of Corruption", "Soulburn", "Dark Soul: Misery", "Life Tap",
         "Fear", "Howl of Terror", "Mortal Coil", "Demonic Circle: Teleport",
         "Unending Resolve", "Dark Bargain", "Soulshatter", "Fel Armor", "Health Funnel",
         "Create Healthstone", "Summon Doomguard", "Summon Infernal", "Summon Felhunter",
         "Summon Voidwalker", "Summon Imp", "Summon Succubus"]),
       ("Demonology",
        ["Shadow Bolt", "Soul Fire", "Hand of Gul'dan", "Metamorphosis", "Touch of Chaos",
         "Doom", "Hellfire", "Chaos Wave", "Dark Soul: Knowledge", "Life Tap", "Fear",
         "Howl of Terror", "Mortal Coil", "Demonic Circle: Teleport", "Unending Resolve",
         "Dark Bargain", "Soulshatter", "Fel Armor", "Health Funnel", "Create Healthstone",
         "Summon Doomguard", "Summon Infernal", "Summon Felhunter", "Summon Voidwalker",
         "Summon Imp", "Summon Felguard"]),
       ("Destruction",
        ["Incinerate", "Immolate", "Conflagrate", "Chaos Bolt", "Shadowburn", "Rain of Fire",
         "Havoc", "Dark Soul: Instability", "Life Tap", "Fear", "Howl of Terror",
         "Mortal Coil", "Demonic Circle: Teleport", "Unending Resolve", "Dark Bargain",
         "Soulshatter", "Fel Armor", "Health Funnel", "Create Healthstone",
         "Summon Doomguard", "Summon Infernal", "Summon Felhunter", "Summon Voidwalker",
         "Summon Imp", "Summon Succubus"]) ]),
    ("Monk",
     [ ("Brewmaster",
        ["Keg Smash", "Blackout Kick", "Tiger Palm", "Breath of Fire", "Guard",
         "Purifying Brew", "Fortifying Brew", "Zen Sphere", "Chi Wave", "Leg Sweep",
         "Rushing Jade Wind", "Summon Black Ox Statue", "Spear Hand Strike", "Elusive Brew",
         "Expel Harm", "Detox", "Roll", "Flying Serpent Kick", "Spinning Crane Kick",
         "Touch of Death", "Paralysis", "Legacy of the Emperor", "Legacy of the White Tiger"]),
       ("Windwalker",
        ["Tiger Palm", "Blackout Kick", "Rising Sun Kick", "Fists of Fury", "Spinning Crane Kick",
         "Touch of Death", "Storm, Earth, and Fire", "Energizing Brew", "Tiger's Lust",
         "Chi Wave", "Zen Sphere", "Leg Sweep", "Rushing Jade Wind", "Spear Hand Strike",
         "Expel Harm", "Detox", "Roll", "Flying Serpent Kick", "Touch of Karma",
         "Paralysis", "Legacy of the Emperor", "Legacy of the White Tiger"]),
       ("Mistweaver",
        ["Soothing Mist", "Enveloping Mist", "Surging Mist", "Renewing Mist", "Chi Wave",
         "Zen Sphere", "Chi Burst", "Life Cocoon", "Revival", "Thunder Focus Tea",
         "Spinning Crane Kick", "Detox", "Roll", "Flying Serpent Kick", "Touch of Death",
         "Paralysis", "Legacy of the Emperor", "Legacy of the White Tiger"]) ]) ]

/-- `spell_data.get_spells_for_spec` (sorted, as in the source). -/
def get_spells_for_spec (class_name spec_name : String) : List String :=
  match dictGet SPELL_DATA class_name with
  | none => []
  | some specs =>
    match dictGet specs spec_name with
    | none => []
    | some spells => pySorted spells

end spell_data

/-- `rotation.SpellEntry`. -/
structure SpellEntry where
  name : String
  condition : String
  priority : Int
  enabled : Bool := true
  notes : String := ""
  id : Option Int := none
deriving DecidableEq

/-- `rotation.RotationMetadata`. -/
structure RotationMetadata where
  name : String
  class_name : String
  spec_name : String
  author : String
  version : String
  description : String
  created_at : Int
  modified_at : Int
  tags : List String
deriving DecidableEq

/-- `rotation.Rotation`.  `spec_id` is stored after `_validate_spec` has
checked it is non-null (the table never maps to `0`, Python's other falsy
integer), so it is carried as a plain `Int`. -/
structure Rotation where
  metadata : RotationMetadata
  spells : List SpellEntry
  spec_id : Int
deriving DecidableEq

namespace Rotation

/-- `Rotation._sort_spells`: Python's stable `list.sort(key=priority)`;
`List.insertionSort` with `≤` on priorities is stable in the same sense. -/
def sort_spells (l : List SpellEntry) : List SpellEntry :=
  l.insertionSort (fun a b => a.priority ≤ b.priority)

/-- `Rotation.__init__` (with `_validate_spec`): raises `ValueError` when the
class/spec pair is not in the catalog. -/
def create (class_name spec_name : String) (now : Int) : Except String Rotation :=
  match spell_data.get_spec_id class_name spec_name with
  | none => .error (s!"Invalid class/spec combination: {class_name}/{spec_name}")
  | some sid =>
    .ok { metadata :=
            { name := class_name ++ " " ++ spec_name ++ " Rotation",
              class_name := class_name,
              spec_name := spec_name,
              author := "",
              version := "1.0",
              description := "",
              created_at := now,
              modified_at := now,
              tags := [] },
          spells := [],
          spec_id := sid }

/-- `Rotation.add_spell`.  The error value carries the rotation as it stands
when the `ValueError` is raised: both raises precede every mutation, so it
is the input rotation. -/
def add_spell (r : Rotation) (spell_name : String) (condition : String)
    (priority : Option Int) (now : Int) : Except (String × Rotation) (Rotation × SpellEntry) :=
  if !(spell_data.get_spells_for_spec r.metadata.class_name r.metadata.spec_name).contains spell_name then
    .error (s!"Spell {spell_name} not found for {r.metadata.class_name}/{r.metadata.spec_name}", r)
  else
    let v := ConditionValidator.validate_condition condition
    if !v.1 then
      .error ("Invalid condition: " ++ v.2, r)
    else
      let p := match priority with
        | none => (r.spells.length : Int) + 1
        | some p => p
      let shifted := match priority with
        | none => r.spells
        | some p => r.spells.map (fun s =>
            if s.priority ≥ p then { s with priority := s.priority + 1 } else s)
      let entry : SpellEntry := { name := spell_name, condition := condition, priority := p }
      .ok ({ r with
              spells := sort_spells (shifted ++ [entry])
              metadata := { r.metadata with modified_at := now } },
           entry)

/-- The search-and-pop of `Rotation.remove_spell`'s loop: remove the first
entry whose priority is `p`, or `none` when there is none. -/
def findRemove (p : Int) : List SpellEntry → Option (List SpellEntry)
  | [] => none
  | s :: rest =>
    if s.priority = p then some rest
    else (findRemove p rest).map (fun rest' => s :: rest')

/-- `Rotation.remove_spell`. -/
def remove_spell (r : Rotation) (p : Int) (now : Int) : Rotation × Bool :=
  match findRemove p r.spells with
  | none => (r, false)
  | some l =>
    ({ r with
       spells := l.map (fun s =>
         if s.priority > p then { s with priority := s.priority - 1 } else s)
       metadata := { r.metadata with modified_at := now } },
     true)

/-- The direction-dependent ±1 shift of `Rotation.move_spell`.  An entry
whose priority equals `fromP` satisfies neither range test, so this map
never touches the entry being moved. -/
def moveShift (fromP toP : Int) (s : SpellEntry) : SpellEntry :=
  if fromP < toP then
    (if fromP < s.priority ∧ s.priority ≤ toP then { s with priority := s.priority - 1 } else s)
  else
    (if toP ≤ s.priority ∧ s.priority < fromP then { s with priority := s.priority + 1 } else s)

/-- The body of `Rotation.move_spell` after the early returns: the first
entry with priority `fromP` (the one `spell_to_move` references) receives
priority `toP`; every other entry is shifted by `moveShift`. -/
def moveAssign (fromP toP : Int) : List SpellEntry → List SpellEntry
  | [] => []
  | s :: rest =>
    if s.priority = fromP then
      { s with priority := toP } :: rest.map (moveShift fromP toP)
    else
      moveShift fromP toP s :: moveAssign fromP toP rest

/-- `Rotation.move_spell`. -/
def move_spell (r : Rotation) (from_priority to_priority : Int) (now : Int) : Rotation × Bool :=
  if from_priority = to_priority then (r, true)
  else if r.spells.all (fun s => !(s.priority == from_priority)) then (r, false)
  else
    ({ r with
       spells := sort_spells (moveAssign from_priority to_priority r.spells)
       metadata := { r.metadata with modified_at := now } },
     true)

/-- The `**kwargs` of `Rotation.update_spell` (the fields of `SpellEntry`;
absent keys are `none`). -/
structure UpdateKwargs where
  name : Option String := none
  condition : Option String := none
  priority : Option Int := none
  enabled : Option Bool := none
  notes : Option String := none
deriving DecidableEq

def applyKwargs (kw : UpdateKwargs) (s : SpellEntry) : SpellEntry :=
  let s := match kw.name with | some v => { s with name := v } | none => s
  let s := match kw.condition with | some v => { s with condition := v } | none => s
  let s := match kw.priority with | some v => { s with priority := v } | none => s
  let s := match kw.enabled with | some v => { s with enabled := v } | none => s
  match kw.notes with | some v => { s with notes := v } | none => s

def setFirstMatching (p : Int) (f : SpellEntry → SpellEntry) : List SpellEntry → List SpellEntry
  | [] => []
  | s :: rest => if s.priority = p then f s :: rest else s :: setFirstMatching p f rest

/-- `Rotation.update_spell`.  The condition is validated before any field is
assigned, so the error value carries the unmodified input rotation. -/
def update_spell (r : Rotation) (p : Int) (kw : UpdateKwargs) (now : Int) :
    Except (String × Rotation) (Rotation × Bool) :=
  if r.spells.all (fun s => !(s.priority == p)) then .ok (r, false)
  else
    match kw.condition with
    | some c =>
      let v := ConditionValidator.validate_condition c
      if !v.1 then .error ("Invalid condition: " ++ v.2, r)
      else
        .ok ({ r with
               spells := setFirstMatching p (applyKwargs kw) r.spells
               metadata := { r.metadata with modified_at := now } }, true)
    | none =>
      .ok ({ r with
             spells := setFirstMatching p (applyKwargs kw) r.spells
             metadata := { r.metadata with modified_at := now } }, true)

end Rotation

instance [DecidableEq ε] [DecidableEq α] : DecidableEq (Except ε α) := fun a b =>
  match a, b with
  | .ok x, .ok y => if h : x = y then .isTrue (by rw [h]) else .isFalse (by simp [h])
  | .error x, .error y => if h : x = y then .isTrue (by rw [h]) else .isFalse (by simp [h])
  | .ok _, .error _ => .isFalse (by simp)
  | .error _, .ok _ => .isFalse (by simp)

/-! ### The multi-format codec (`src/core/exporter.py`) -/

/-- The JSON values `json.dumps`/`json.loads` exchange.  Timestamps are
embedded as integers (the `time.time()` floats of the source are threaded
as integer ticks throughout this development). -/
inductive Json where
  | num (n : Int)
  | str (s : String)
  | jbool (b : Bool)
  | arr (xs : List Json)
  | obj (fields : List (String × Json))

/-- Python `d[key]` / `key in d` on a parsed JSON object. -/
def Json.get? (j : Json) (key : String) : Option Json :=
  match j with
  | .obj fs => (fs.find? (fun p => p.1 == key)).map (·.2)
  | _ => none

/-- Read a string field; a missing key is Python's `KeyError`, a value of
another type would be stored as-is by the dynamically typed source — the
importer theorems only exercise well-typed documents, where requiring the
documented type is equivalent. -/
def Json.getStr (j : Json) (key : String) : Except String String :=
  match j.get? key with
  | some (.str s) => .ok s
  | some _ => .error ("KeyError: " ++ key)
  | none => .error ("KeyError: " ++ key)

def Json.getInt (j : Json) (key : String) : Except String Int :=
  match j.get? key with
  | some (.num n) => .ok n
  | _ => .error ("KeyError: " ++ key)

def Json.getBool (j : Json) (key : String) : Except String Bool :=
  match j.get? key with
  | some (.jbool b) => .ok b
  | _ => .error ("KeyError: " ++ key)

def Json.strListStep (x : Json) (acc : Except String (List String)) :
    Except String (List String) :=
  match x with
  | .str s => do let t ← acc; .ok (s :: t)
  | _ => .error "type error"

def Json.getStrList (j : Json) (key : String) : Except String (List String) :=
  match j.get? key with
  | some (.arr xs) => xs.foldr Json.strListStep (.ok [])
  | _ => .error ("KeyError: " ++ key)

def Json.getArr (j : Json) (key : String) : Except String (List Json) :=
  match j.get? key with
  | some (.arr xs) => .ok xs
  | _ => .error ("KeyError: " ++ key)

namespace RotationExporter

/-- The JSON object `to_json` emits for one spell entry. -/
def spellJson (s : SpellEntry) : Json :=
  .obj
    [ ("name", .str s.name),
      ("condition", .str s.condition),
      ("priority", .num s.priority),
      ("enabled", .jbool s.enabled),
      ("notes", .str s.notes) ]

/-- The JSON object `to_json` emits for the metadata block. -/
def metaJson (r : Rotation) : Json :=
  .obj
    [ ("name", .str r.metadata.name),
      ("class_name", .str r.metadata.class_name),
      ("spec_name", .str r.metadata.spec_name),
      ("author", .str r.metadata.author),
      ("version", .str r.metadata.version),
      ("description", .str r.metadata.description),
      ("created_at", .num r.metadata.created_at),
      ("modified_at", .num r.metadata.modified_at),
      ("tags", .arr (r.metadata.tags.map .str)) ]

/-- `RotationExporter.to_json` (the parsed form of the emitted document;
`json.dumps`/`json.loads` round-trip this structure unchanged). -/
def to_json (r : Rotation) : Json :=
  .obj
    [ ("format_version", .str "1.0"),
      ("metadata", metaJson r),
      ("spec_id", .num r.spec_id),
      ("spells", .arr (r.spells.map spellJson)) ]

end RotationExporter

/-- An `xml.etree.ElementTree` element: tag, text, child elements. -/
inductive XmlElem where
  | node (tag : String) (text : Option String) (children : List XmlElem)

def XmlElem.tag : XmlElem → String
  | .node t _ _ => t

def XmlElem.text : XmlElem → Option String
  | .node _ t _ => t

def XmlElem.children : XmlElem → List XmlElem
  | .node _ _ c => c

/-- `Element.find`: first direct child with the given tag. -/
def XmlElem.find (e : XmlElem) (t : String) : Option XmlElem :=
  e.children.find? (fun c => c.tag == t)

/-- `Element.findall`: all direct children with the given tag. -/
def XmlElem.findall (e : XmlElem) (t : String) : List XmlElem :=
  e.children.filter (fun c => c.tag == t)

/-- `datetime.fromtimestamp(t).isoformat()` for an integral epoch `t`.  The
calendar rendering itself is opaque to the codec; the only property the
importer relies on is that `etIsoDecode` inverts it, so the embedding uses
the decimal rendering of the tick count. -/
def etIsoEncode (t : Int) : String :=
  pyStrInt t

/-- `datetime.fromisoformat(s).timestamp()` on the output of
`etIsoEncode` (other strings: a parse failure, as in Python). -/
def etIsoDecode (s : String) : Option Int :=
  pyInt s

/-- Interior whitespace-only lines are deleted before `to_xml` returns its
string (the `'\n'.join([line ... if line.strip()])` pass over the
pretty-printed document); the first and the last segment of a leaf text
share their document line with the opening and closing tag, so only the
segments strictly between them can form whitespace-only lines.  The last
segment (the `[s]` case) is therefore always kept. -/
def dropBlankMid : List (List Char) → List (List Char)
  | [] => []
  | [s] => [s]
  | s :: rest => if s.all pyWs then dropBlankMid rest else s :: dropBlankMid rest

def joinNl : List (List Char) → List Char
  | [] => []
  | [s] => s
  | s :: ss => s ++ '\n' :: joinNl ss

/-- What a leaf element's text becomes across `to_xml`'s string boundary:
the text is printed verbatim between the tags, the document is split on
newlines, whitespace-only lines are deleted, and the parser reads the
surviving segments back joined with single newlines. -/
def normBlankLines (t : String) : String :=
  match pySplitChar '\n' t.data with
  | [] => t
  | s0 :: rest => String.mk (joinNl (s0 :: dropBlankMid rest))

/-- The text a serialized leaf element reparses with: the empty string
becomes `None`, every other text loses its whitespace-only interior
lines. -/
def normText : Option String → Option String
  | some "" => none
  | some t => some (normBlankLines t)
  | none => none

/-- A text that crosses `to_xml`'s string boundary unchanged: nonempty (an
empty element reparses with `text = None`) and a fixed point of the
pretty-printer's blank-line deletion. -/
abbrev xmlSafe (t : String) : Prop := t ≠ "" ∧ normBlankLines t = t

/-- Every text `to_xml` serializes from `r` is `xmlSafe`. -/
abbrev xmlSafeRotation (r : Rotation) : Prop :=
  xmlSafe r.metadata.name ∧ xmlSafe r.metadata.class_name ∧ xmlSafe r.metadata.spec_name ∧
  xmlSafe r.metadata.author ∧ xmlSafe r.metadata.version ∧ xmlSafe r.metadata.description ∧
  (∀ t ∈ r.metadata.tags, xmlSafe t) ∧
  (∀ s ∈ r.spells, xmlSafe s.name ∧ xmlSafe s.condition ∧ xmlSafe s.notes)

mutual

/-- `ET.tostring`, `minidom.toprettyxml`, the blank-line deletion, and
reparsing (the string boundary between `to_xml` and `from_xml`): an element
whose text is the empty string is serialized as an empty element and comes
back with `text = None`; every other leaf text comes back through
`normBlankLines` (single-text children are printed inline by
`minidom.toprettyxml` on Python ≥ 3.8, and the importer never reads the
whitespace text pretty-printing adds to container elements). -/
def etStringRoundtrip : XmlElem → XmlElem
  | .node t tx cs => .node t (normText tx) (etStringRoundtripList cs)

def etStringRoundtripList : List XmlElem → List XmlElem
  | [] => []
  | e :: es => etStringRoundtrip e :: etStringRoundtripList es

end

namespace RotationExporter

/-- The XML element `to_xml` builds for one spell entry. -/
def spellXml (s : SpellEntry) : XmlElem :=
  .node "spell" none
    [ .node "name" (some s.name) [],
      .node "condition" (some s.condition) [],
      .node "priority" (some (pyStrInt s.priority)) [],
      .node "enabled" (some (if s.enabled then "true" else "false")) [],
      .node "notes" (some s.notes) [] ]

/-- `RotationExporter.to_xml` (the element tree built by the source; the
pretty-printed string it returns parses back to `etStringRoundtrip` of
this tree). -/
def to_xml (r : Rotation) : XmlElem :=
  .node "rotation" none
    [ .node "metadata" none
        ([ .node "name" (some r.metadata.name) [],
           .node "class" (some r.metadata.class_name) [],
           .node "spec" (some r.metadata.spec_name) [],
           .node "author" (some r.metadata.author) [],
           .node "version" (some r.metadata.version) [],
           .node "description" (some r.metadata.description) [],
           .node "created" (some (etIsoEncode r.metadata.created_at)) [],
           .node "modified" (some (etIsoEncode r.metadata.modified_at)) [],
           .node "tags" none (r.metadata.tags.map (fun t => .node "tag" (some t) [])) ]),
      .node "spells" none (r.spells.map spellXml) ]

end RotationExporter

namespace RotationImporter

/-- One iteration of `from_json`'s spell loop.  The `spell.enabled = ...` /
`spell.notes = ...` assignments mutate the entry `add_spell` just returned;
after an add with an explicit priority that entry is the unique one carrying
that priority (every pre-existing entry at `≥ priority` was shifted up), so
the mutation is modelled by updating the first entry with that priority. -/
def importSpellJson (r : Rotation) (sj : Json) (now : Int) : Except String Rotation := do
  let name ← sj.getStr "name"
  let condition ← sj.getStr "condition"
  let priority ← sj.getInt "priority"
  match Rotation.add_spell r name condition (some priority) now with
  | .error ep => throw ep.1
  | .ok rr => do
    let enabled ← sj.getBool "enabled"
    let notes ← sj.getStr "notes"
    let upd : SpellEntry → SpellEntry := fun s =>
      { s with enabled := enabled, notes := notes }
    pure { rr.1 with spells := Rotation.setFirstMatching priority upd rr.1.spells }

/-- The `try` block of `RotationImporter.from_json`. -/
def from_json_body (data : Json) (now : Int) : Except String Rotation := do
  let okVer : Bool := match data.get? "format_version" with
    | some (.str s) => s == "1.0"
    | some _ => false
    | none => false
  if !okVer then throw "Unsupported JSON format version"
  let meta ← match data.get? "metadata" with
    | some m => pure m
    | none => throw "KeyError: metadata"
  let className ← meta.getStr "class_name"
  let specName ← meta.getStr "spec_name"
  let r ← Rotation.create className specName now
  let name ← meta.getStr "name"
  let author ← meta.getStr "author"
  let version ← meta.getStr "version"
  let description ← meta.getStr "description"
  let created_at ← meta.getInt "created_at"
  let modified_at ← meta.getInt "modified_at"
  let tags ← meta.getStrList "tags"
  let r := { r with metadata :=
    { r.metadata with
      name := name
      author := author
      version := version
      description := description
      created_at := created_at
      modified_at := modified_at
      tags := tags } }
  let spells ← data.getArr "spells"
  spells.foldlM (fun acc sj => importSpellJson acc sj now) r

/-- `RotationImporter.from_json`: any failure in the body is re-raised as
`ValueError("Error parsing JSON: ...")`. -/
def from_json (data : Json) (now : Int) : Except String Rotation :=
  match from_json_body data now with
  | .error e => .error ("Error parsing JSON: " ++ e)
  | .ok r => .ok r

/-- `element.find(tag)` followed by an attribute access, which raises
`AttributeError` on `None`. -/
def xmlFindE (e : XmlElem) (t : String) : Except String XmlElem :=
  match e.find t with
  | some c => .ok c
  | none => .error ("AttributeError: missing element " ++ t)

/-- Reading `element.text` into a `str`-typed slot.  Python stores the raw
value (`None` when the element is empty); `None` arises at this boundary only
when an empty string was serialized, and the theorems below hypothesize the
relevant texts are nonempty, where both behaviours coincide. -/
def xmlText (e : XmlElem) : String :=
  e.text.getD ""

/-- One iteration of `from_xml`'s spell loop (see `importSpellJson` for the
modelling of the post-`add_spell` mutations). -/
def importSpellXml (r : Rotation) (se : XmlElem) (now : Int) : Except String Rotation := do
  let nameEl ← xmlFindE se "name"
  let condEl ← xmlFindE se "condition"
  let priEl ← xmlFindE se "priority"
  let priority ← match pyInt (xmlText priEl) with
    | some n => pure n
    | none => throw ("invalid literal for int(): " ++ xmlText priEl)
  match Rotation.add_spell r (xmlText nameEl) (xmlText condEl) (some priority) now with
  | .error ep => throw ep.1
  | .ok rr => do
    let enEl ← xmlFindE se "enabled"
    let enabled : Bool := enEl.text == some "true"
    let notes : Option String := (se.find "notes").map xmlText
    let upd : SpellEntry → SpellEntry := fun s =>
      match notes with
      | some n => { s with enabled := enabled, notes := n }
      | none => { s with enabled := enabled }
    pure { rr.1 with spells := Rotation.setFirstMatching priority upd rr.1.spells }

/-- The `try` block of `RotationImporter.from_xml`. -/
def from_xml_body (root : XmlElem) (now : Int) : Except String Rotation := do
  let metadata ← xmlFindE root "metadata"
  let classEl ← xmlFindE metadata "class"
  let specEl ← xmlFindE metadata "spec"
  let r ← Rotation.create (xmlText classEl) (xmlText specEl) now
  let nameEl ← xmlFindE metadata "name"
  let authorEl ← xmlFindE metadata "author"
  let versionEl ← xmlFindE metadata "version"
  let descriptionEl ← xmlFindE metadata "description"
  let createdEl ← xmlFindE metadata "created"
  let created ← match etIsoDecode (xmlText createdEl) with
    | some t => pure t
    | none => throw "Invalid isoformat string"
  let modifiedEl ← xmlFindE metadata "modified"
  let modified ← match etIsoDecode (xmlText modifiedEl) with
    | some t => pure t
    | none => throw "Invalid isoformat string"
  let tags : List String := match metadata.find "tags" with
    | some tagsEl => (tagsEl.findall "tag").map xmlText
    | none => r.metadata.tags
  let r := { r with metadata :=
    { r.metadata with
      name := xmlText nameEl
      author := xmlText authorEl
      version := xmlText versionEl
      description := xmlText descriptionEl
      created_at := created
      modified_at := modified
      tags := tags } }
  let spellsEl ← xmlFindE root "spells"
  (spellsEl.findall "spell").foldlM (fun acc se => importSpellXml acc se now) r

/-- `RotationImporter.from_xml`. -/
def from_xml (root : XmlElem) (now : Int) : Except String Rotation :=
  match from_xml_body root now with
  | .error e => .error ("Error parsing XML: " ++ e)
  | .ok r => .ok r

end RotationImporter

/-! ### SOE registration-format scanning (`re` patterns of the importers) -/

/-- Try the regex `register\((\d+)` at the head of `l`: returns the captured
(maximal, nonempty) digit run. -/
def matchRegisterAt (l : List Char) : Option (List Char) :=
  if "register(".data.isPrefixOf l then
    let ds := (l.drop 9).takeWhile Char.isDigit
    if ds.isEmpty then none else some ds
  else none

/-- `re.search(r'register\((\d+)', content)`: leftmost match. -/
def searchRegister : List Char → Option (List Char)
  | [] => none
  | c :: t =>
    match matchRegisterAt (c :: t) with
    | some ds => some ds
    | none => searchRegister t

/-- `int` on a captured digit run. -/
def digitsToNat (ds : List Char) : Nat :=
  ds.foldl (fun acc c => acc * 10 + (c.toNat - '0'.toNat)) 0

/-- The nested loop over `spell_data.SPEC_IDS` that reverse-looks-up a spec
id (first match in dict iteration order, with the source's double `break`). -/
def specIdLookup (sid : Int) : Option (String × String) :=
  spell_data.SPEC_IDS.findSome? (fun cls =>
    (cls.2.find? (fun p => p.2 == sid)).map (fun p => (cls.1, p.1)))

/-- Try the regex `--\s*<key>\s*(.+)` at the head of `l` and return the
captured group.  `.+` is greedy up to the next newline; when only
whitespace remains after `<key>`, the regex backtracks `\s*` just far
enough for `.+` to take the last non-newline whitespace character. -/
def matchMetaAt (key : List Char) (l : List Char) : Option (List Char) :=
  if ['-', '-'].isPrefixOf l then
    let l1 := (l.drop 2).dropWhile pyWs
    if key.isPrefixOf l1 then
      let l2 := l1.drop key.length
      let rest := l2.dropWhile pyWs
      match rest with
      | _ :: _ => some (rest.takeWhile (fun c => c ≠ '\n'))
      | [] =>
        match (l2.takeWhile pyWs).reverse.find? (fun c => c ≠ '\n') with
        | some c => some [c]
        | none => none
    else none
  else none

/-- `re.search(r'--\s*<key>\s*(.+)', content)`: leftmost match. -/
def searchMeta (key : List Char) : List Char → Option (List Char)
  | [] => none
  | c :: t =>
    match matchMetaAt key (c :: t) with
    | some cap => some cap
    | none => searchMeta key t

/-- Try the regex `\{\s*"([^"]+)",\s*"([^"]+)"\s*\}` at the head of `l`:
returns the two captures and the input remaining after the match. -/
def matchTupleAt (l : List Char) : Option (String × String × List Char) :=
  match l with
  | '{' :: r0 =>
    match r0.dropWhile pyWs with
    | '"' :: r2 =>
      let nm := r2.takeWhile (fun c => c ≠ '"')
      if nm.isEmpty then none
      else
        match r2.drop nm.length with
        | '"' :: ',' :: r4 =>
          match r4.dropWhile pyWs with
          | '"' :: r6 =>
            let cond := r6.takeWhile (fun c => c ≠ '"')
            if cond.isEmpty then none
            else
              match r6.drop cond.length with
              | '"' :: r8 =>
                match r8.dropWhile pyWs with
                | '}' :: r10 => some (String.mk nm, String.mk cond, r10)
                | _ => none
              | _ => none
          | _ => none
        | _ => none
    | _ => none
  | _ => none

/-- `re.finditer(r'\{\s*"([^"]+)",\s*"([^"]+)"\s*\}', content)`:
non-overlapping leftmost matches.  `fuel` bounds the scan (one unit per
input position; callers pass the input length, which suffices since even a
failed position consumes one character and a match consumes more). -/
def findTuplesAux : Nat → List Char → List (String × String)
  | _, [] => []
  | 0, _ => []
  | fuel + 1, c :: t =>
    match matchTupleAt (c :: t) with
    | some (nm, cond, rest) => (nm, cond) :: findTuplesAux fuel rest
    | none => findTuplesAux fuel t

def findTuples (l : List Char) : List (String × String) :=
  findTuplesAux l.length l

namespace RotationImporter

/-- The spell loop shared by the SOE importers:
`for i, match in enumerate(spell_matches, 1): rotation.add_spell(name, condition, i)`. -/
def addTuples (now : Int) : Rotation → Int → List (String × String) → Except String Rotation
  | r, _, [] => .ok r
  | r, i, (nm, cond) :: rest =>
    match Rotation.add_spell r nm cond (some i) now with
    | .error ep => .error ep.1
    | .ok rr => addTuples now rr.1 (i + 1) rest

/-- The `try` block of `RotationImporter.from_soe`. -/
def from_soe_body (content : List Char) (now : Int) : Except String Rotation := do
  let ds ← match searchRegister content with
    | some ds => pure ds
    | none => throw "Could not find spec ID in SOE code"
  let sid : Int := (digitsToNat ds : Nat)
  let cs ← match specIdLookup sid with
    | some cs => pure cs
    | none => throw (s!"Invalid spec ID: {sid}")
  let r ← Rotation.create cs.1 cs.2 now
  let r := match searchMeta "Author:".data content with
    | some cap => { r with metadata := { r.metadata with author := String.mk (pyStrip cap) } }
    | none => r
  let r := match searchMeta "Version:".data content with
    | some cap => { r with metadata := { r.metadata with version := String.mk (pyStrip cap) } }
    | none => r
  let r := match searchMeta "Description:".data content with
    | some cap => { r with metadata := { r.metadata with description := String.mk (pyStrip cap) } }
    | none => r
  addTuples now r 1 (findTuples content)

/-- `RotationImporter.from_soe`. -/
def from_soe (content : String) (now : Int) : Except String Rotation :=
  match from_soe_body content.data now with
  | .error e => .error ("Error parsing SOE Engine code: " ++ e)
  | .ok r => .ok r

end RotationImporter

namespace Rotation

/-- `rotation.py`'s module-level imports are `typing`, `dataclasses`,
`json`, `time`, `conditions` and `spell_data` — the `re` module referenced
by `Rotation.from_soe_format` is never imported. -/
def rotationModuleDefinesRe : Bool := false

/-- What the `try` block of `Rotation.from_soe_format` would compute if the
name `re` resolved (it parallels `RotationImporter.from_soe` but extracts no
comment metadata and uses a different missing-id message). -/
def from_soe_format_body (content : List Char) (now : Int) : Except String Rotation := do
  let ds ← match searchRegister content with
    | some ds => pure ds
    | none => throw "Could not find spec ID in code"
  let sid : Int := (digitsToNat ds : Nat)
  let cs ← match specIdLookup sid with
    | some cs => pure cs
    | none => throw (s!"Invalid spec ID: {sid}")
  let r ← Rotation.create cs.1 cs.2 now
  RotationImporter.addTuples now r 1 (findTuples content)

/-- `Rotation.from_soe_format`: the first statement of the `try` block
evaluates `re.search(...)`; `re` is an unresolved name in this module, so a
`NameError` is raised immediately and the `except Exception` arm re-raises
it as `ValueError(f"Error parsing SOE Engine code: {str(e)}")`. -/
def from_soe_format (soe_code : String) (now : Int) : Except String Rotation :=
  let body : Except String Rotation :=
    if rotationModuleDefinesRe then from_soe_format_body soe_code.data now
    else .error "name 're' is not defined"
  match body with
  | .error e => .error ("Error parsing SOE Engine code: " ++ e)
  | .ok r => .ok r

end Rotation

/-- `" ".join(parts)` on char lists. -/
def joinSpaceChars : List (List Char) → List Char
  | [] => []
  | [p] => p
  | p :: ps => p ++ ' ' :: joinSpaceChars ps

/-- Python `" ".join(parts)`. -/
def joinSpace (parts : List String) : String :=
  String.mk (joinSpaceChars (parts.map String.data))

/-- `conditions.ConditionBuilder` state. -/
structure ConditionBuilder where
  condition_parts : List String := []
  current_class : Option String := none
deriving DecidableEq

namespace ConditionBuilder

def set_class (b : ConditionBuilder) (class_name : String) : ConditionBuilder :=
  { b with current_class := some class_name }

/-- `get_available_categories` (the `self.current_class and ...` guard makes
an empty-string class falsy, like `None`). -/
def get_available_categories (b : ConditionBuilder) : List String :=
  let categories := ConditionValidator.BASIC_CONDITIONS.map (·.1)
  let categories := match b.current_class with
    | some c =>
      if c ≠ "" && (ConditionValidator.CLASS_CONDITIONS.find? (fun p => p.1 == c)).isSome
      then categories ++ [c] else categories
    | none => categories
  spell_data.pySorted categories

def get_conditions_for_category (b : ConditionBuilder) (category : String) :
    List (String × String) :=
  match ConditionValidator.BASIC_CONDITIONS.find? (fun p => p.1 == category) with
  | some p => p.2
  | none =>
    match b.current_class with
    | some c =>
      if category == c && (ConditionValidator.CLASS_CONDITIONS.find? (fun p => p.1 == c)).isSome
      then ((ConditionValidator.CLASS_CONDITIONS.find? (fun p => p.1 == c)).map (·.2)).getD []
      else []
    | none => []

def add_condition_part (b : ConditionBuilder) (category condition operator value : String) :
    ConditionBuilder :=
  let condition_str := category ++ "." ++ condition
  let condition_str :=
    if operator ≠ "" && value ≠ "" then condition_str ++ " " ++ operator ++ " " ++ value
    else condition_str
  { b with condition_parts := b.condition_parts ++ [condition_str] }

def add_logical_operator (b : ConditionBuilder) (operator : String) : ConditionBuilder :=
  { b with condition_parts := b.condition_parts ++ [operator] }

def add_not_operator (b : ConditionBuilder) : ConditionBuilder :=
  match b.condition_parts.getLast? with
  | some last =>
    if last ≠ "&&" && last ≠ "||" then { b with condition_parts := b.condition_parts ++ ["!"] }
    else b
  | none => b

def get_condition (b : ConditionBuilder) : String :=
  joinSpace b.condition_parts

def clear (b : ConditionBuilder) : ConditionBuilder :=
  { b with condition_parts := [] }

def remove_last (b : ConditionBuilder) : ConditionBuilder :=
  { b with condition_parts := b.condition_parts.dropLast }

def validate (b : ConditionBuilder) : Bool × String :=
  ConditionValidator.validate_condition b.get_condition

end ConditionBuilder

/-! ### The dense-priority invariant -/

/-- The priorities of an entry list, in list order. -/
def prios (l : List SpellEntry) : List Int :=
  l.map (·.priority)

/-- `[a, a+1, ..., a+n-1]`. -/
def rangeInt (a : Int) : Nat → List Int
  | 0 => []
  | n + 1 => a :: rangeInt (a + 1) n

/-- The spec's priority invariant: the entries' priorities, read off in list
order, are exactly `1, 2, ..., N`. -/
def dense (r : Rotation) : Prop :=
  prios r.spells = rangeInt 1 r.spells.length

theorem length_rangeInt (a : Int) (n : Nat) : (rangeInt a n).length = n := by
  induction n generalizing a with
  | zero => rfl
  | succ n ih => simp [rangeInt, ih]

theorem rangeInt_append (a : Int) (m n : Nat) :
    rangeInt a (m + n) = rangeInt a m ++ rangeInt (a + m) n := by
  induction m generalizing a with
  | zero => simp [rangeInt]
  | succ m ih =>
    have h1 : m + 1 + n = (m + n) + 1 := by omega
    have h2 : a + ((m + 1 : Nat) : Int) = (a + 1) + (m : Int) := by push_cast; ring
    rw [h1, h2]
    simp only [rangeInt, List.cons_append]
    rw [ih (a + 1)]

theorem mem_rangeInt {x a : Int} {n : Nat} : x ∈ rangeInt a n ↔ a ≤ x ∧ x < a + n := by
  induction n generalizing a with
  | zero => simp [rangeInt]
  | succ n ih =>
    simp only [rangeInt, List.mem_cons, ih]
    constructor
    · rintro (rfl | ⟨h1, h2⟩) <;> constructor <;> omega
    · rintro ⟨h1, h2⟩
      rcases eq_or_lt_of_le h1 with rfl | h
      · exact Or.inl rfl
      · exact Or.inr ⟨by omega, by omega⟩

theorem rangeInt_sorted_lt (a : Int) (n : Nat) : List.Pairwise (· < ·) (rangeInt a n) := by
  induction n generalizing a with
  | zero => exact List.Pairwise.nil
  | succ n ih =>
    refine List.pairwise_cons.2 ⟨fun x hx => ?_, ih (a + 1)⟩
    have := mem_rangeInt.1 hx
    omega

theorem rangeInt_sorted_le (a : Int) (n : Nat) : List.Pairwise (· ≤ ·) (rangeInt a n) :=
  (rangeInt_sorted_lt a n).imp le_of_lt

theorem map_add_one_rangeInt (a : Int) (n : Nat) :
    (rangeInt a n).map (· + 1) = rangeInt (a + 1) n := by
  induction n generalizing a with
  | zero => rfl
  | succ n ih => simp [rangeInt, ih]

theorem map_sub_one_rangeInt (a : Int) (n : Nat) :
    (rangeInt a n).map (· - 1) = rangeInt (a - 1) n := by
  induction n generalizing a with
  | zero => rfl
  | succ n ih =>
    simp only [rangeInt, List.map_cons, ih]
    congr 2
    omega

/-- Mapping an entry-level function below `prios` is mapping the matching
priority-level function. -/
theorem prios_map (g : SpellEntry → SpellEntry) (f : Int → Int)
    (hg : ∀ s, (g s).priority = f s.priority) (l : List SpellEntry) :
    prios (l.map g) = (prios l).map f := by
  induction l with
  | nil => rfl
  | cons s t ih => simp [prios, hg s] at ih ⊢; simpa [prios] using ih

instance : IsTotal SpellEntry (fun a b => a.priority ≤ b.priority) :=
  ⟨fun a b => Int.le_total a.priority b.priority⟩

instance : IsTrans SpellEntry (fun a b => a.priority ≤ b.priority) :=
  ⟨fun _ _ _ hab hbc => le_trans hab hbc⟩

theorem sort_spells_perm (l : List SpellEntry) : List.Perm (Rotation.sort_spells l) l :=
  List.perm_insertionSort _ l

theorem sort_spells_sorted (l : List SpellEntry) :
    List.Pairwise (fun a b : SpellEntry => a.priority ≤ b.priority) (Rotation.sort_spells l) :=
  List.sorted_insertionSort _ l

/-- Sorting a list whose priorities are a permutation of `1..n` yields the
priorities `1, 2, ..., n` in list order. -/
theorem sort_spells_dense {l : List SpellEntry} {n : Nat}
    (h : List.Perm (prios l) (rangeInt 1 n)) :
    prios (Rotation.sort_spells l) = rangeInt 1 n ∧ (Rotation.sort_spells l).length = n := by
  have hperm : List.Perm (prios (Rotation.sort_spells l)) (rangeInt 1 n) := by
    unfold prios at h ⊢
    exact ((sort_spells_perm l).map _).trans h
  have hsorted : List.Pairwise (· ≤ ·) (prios (Rotation.sort_spells l)) :=
    (sort_spells_sorted l).map _ (fun _ _ hab => hab)
  refine ⟨List.eq_of_perm_of_sorted hperm hsorted (rangeInt_sorted_le 1 n), ?_⟩
  have := hperm.length_eq
  simpa [prios, length_rangeInt] using this

/-- The entry list produced by a successful `add_spell` with the priority
argument omitted. -/
theorem add_spell_ok_spells_none {r : Rotation} {nm cond : String} {now : Int}
    {r' : Rotation} {e : SpellEntry}
    (h : Rotation.add_spell r nm cond none now = .ok (r', e)) :
    r'.spells = Rotation.sort_spells
      (r.spells ++
       [{ name := nm, condition := cond, priority := (r.spells.length : Int) + 1 }]) := by
  by_cases h1 : ((spell_data.get_spells_for_spec r.metadata.class_name
      r.metadata.spec_name).contains nm) = true
  · by_cases h2 : (ConditionValidator.validate_condition cond).1 = true
    · simp only [Rotation.add_spell, h1, h2, Bool.not_true, Bool.false_eq_true, if_false,
        Except.ok.injEq, Prod.mk.injEq] at h
      rw [← h.1]
    · have h1m : nm ∈ spell_data.get_spells_for_spec r.metadata.class_name
          r.metadata.spec_name := by simpa using h1
      simp [Rotation.add_spell, h1m, h2] at h
  · have h1m : ¬ nm ∈ spell_data.get_spells_for_spec r.metadata.class_name
        r.metadata.spec_name := by simpa using h1
    simp [Rotation.add_spell, h1m] at h

/-- The entry list produced by a successful `add_spell` with an explicit
priority: entries at `≥ p` are shifted up before the new entry is appended
and the list re-sorted. -/
theorem add_spell_ok_spells_some {r : Rotation} {nm cond : String} {p now : Int}
    {r' : Rotation} {e : SpellEntry}
    (h : Rotation.add_spell r nm cond (some p) now = .ok (r', e)) :
    r'.spells = Rotation.sort_spells
      (r.spells.map (fun s =>
         if s.priority ≥ p then { s with priority := s.priority + 1 } else s) ++
       [{ name := nm, condition := cond, priority := p }]) := by
  by_cases h1 : ((spell_data.get_spells_for_spec r.metadata.class_name
      r.metadata.spec_name).contains nm) = true
  · by_cases h2 : (ConditionValidator.validate_condition cond).1 = true
    · simp only [Rotation.add_spell, h1, h2, Bool.not_true, Bool.false_eq_true, if_false,
        Except.ok.injEq, Prod.mk.injEq] at h
      rw [← h.1]
    · have h1m : nm ∈ spell_data.get_spells_for_spec r.metadata.class_name
          r.metadata.spec_name := by simpa using h1
      simp [Rotation.add_spell, h1m, h2] at h
  · have h1m : ¬ nm ∈ spell_data.get_spells_for_spec r.metadata.class_name
        r.metadata.spec_name := by simpa using h1
    simp [Rotation.add_spell, h1m] at h

theorem add_spell_dense_none {r : Rotation} {nm cond : String} {now : Int}
    {r' : Rotation} {e : SpellEntry} (hr : dense r)
    (h : Rotation.add_spell r nm cond none now = .ok (r', e)) : dense r' := by
  have hs := add_spell_ok_spells_none h
  have hperm : List.Perm
      (prios (r.spells ++
        [{ name := nm, condition := cond, priority := (r.spells.length : Int) + 1 }]))
      (rangeInt 1 (r.spells.length + 1)) := by
    have h1 : prios (r.spells ++
        [{ name := nm, condition := cond, priority := (r.spells.length : Int) + 1 }]) =
        rangeInt 1 r.spells.length ++ [(r.spells.length : Int) + 1] := by
      unfold dense at hr
      simp [prios] at hr ⊢
      exact hr
    have h2 : rangeInt 1 (r.spells.length + 1) =
        rangeInt 1 r.spells.length ++ [(r.spells.length : Int) + 1] := by
      rw [rangeInt_append 1 r.spells.length 1]
      simp [rangeInt]
      omega
    rw [h1, ← h2]
  obtain ⟨hd, hl⟩ := sort_spells_dense hperm
  unfold dense
  rw [hs, hl, hd]

theorem add_spell_dense_some {r : Rotation} {nm cond : String} {p now : Int}
    {r' : Rotation} {e : SpellEntry} (hr : dense r)
    (hp1 : 1 ≤ p) (hp2 : p ≤ (r.spells.length : Int) + 1)
    (h : Rotation.add_spell r nm cond (some p) now = .ok (r', e)) : dense r' := by
  have hs := add_spell_ok_spells_some h
  obtain ⟨j, hj, hjN⟩ : ∃ j : Nat, (j : Int) = p - 1 ∧ j ≤ r.spells.length := by
    refine ⟨(p - 1).toNat, Int.toNat_of_nonneg (by omega), ?_⟩
    have h0 := Int.toNat_of_nonneg (show (0 : Int) ≤ p - 1 by omega)
    omega
  have hmap : prios (r.spells.map (fun s =>
      if s.priority ≥ p then { s with priority := s.priority + 1 } else s)) =
      (prios r.spells).map (fun x => if x ≥ p then x + 1 else x) := by
    apply prios_map
    intro s
    by_cases hc : s.priority ≥ p <;> simp [hc]
  have hsplit : rangeInt 1 r.spells.length =
      rangeInt 1 j ++ rangeInt (1 + (j : Int)) (r.spells.length - j) := by
    have hNj : j + (r.spells.length - j) = r.spells.length := Nat.add_sub_cancel' hjN
    rw [← rangeInt_append 1 j (r.spells.length - j), hNj]
  have hA : (rangeInt 1 j).map (fun x => if x ≥ p then x + 1 else x) = rangeInt 1 j := by
    have hc : ∀ x ∈ rangeInt 1 j, (if x ≥ p then x + 1 else x) = x := by
      intro x hx
      have := mem_rangeInt.1 hx
      have hlt : ¬ x ≥ p := by omega
      simp [hlt]
    rw [List.map_congr_left hc]
    simp
  have hB : (rangeInt (1 + (j : Int)) (r.spells.length - j)).map
      (fun x => if x ≥ p then x + 1 else x) = rangeInt (p + 1) (r.spells.length - j) := by
    have hc : ∀ x ∈ rangeInt (1 + (j : Int)) (r.spells.length - j),
        (if x ≥ p then x + 1 else x) = x + 1 := by
      intro x hx
      have := mem_rangeInt.1 hx
      have hge : x ≥ p := by omega
      simp [hge]
    rw [List.map_congr_left hc, map_add_one_rangeInt]
    congr 1
    omega
  have hcomb : prios (r.spells.map (fun s =>
        if s.priority ≥ p then { s with priority := s.priority + 1 } else s) ++
      [{ name := nm, condition := cond, priority := p }]) =
      (rangeInt 1 j ++ rangeInt (p + 1) (r.spells.length - j)) ++ [p] := by
    have hh : prios (r.spells.map (fun s =>
          if s.priority ≥ p then { s with priority := s.priority + 1 } else s) ++
        [{ name := nm, condition := cond, priority := p }]) =
        prios (r.spells.map (fun s =>
          if s.priority ≥ p then { s with priority := s.priority + 1 } else s)) ++ [p] := by
      simp [prios]
    rw [hh, hmap]
    unfold dense at hr
    rw [hr, hsplit, List.map_append, hA, hB]
  have htarget : rangeInt 1 (r.spells.length + 1) =
      rangeInt 1 j ++ (p :: rangeInt (p + 1) (r.spells.length - j)) := by
    have hNj : j + (r.spells.length + 1 - j) = r.spells.length + 1 := by omega
    have h1 : rangeInt 1 (r.spells.length + 1) =
        rangeInt 1 j ++ rangeInt (1 + (j : Int)) (r.spells.length + 1 - j) := by
      conv_lhs => rw [← hNj]
      exact rangeInt_append 1 j _
    rw [h1]
    congr 1
    have hlen : r.spells.length + 1 - j = (r.spells.length - j) + 1 := by omega
    rw [hlen, show (1 + (j : Int)) = p by omega]
    rfl
  have hperm : List.Perm (prios (r.spells.map (fun s =>
        if s.priority ≥ p then { s with priority := s.priority + 1 } else s) ++
      [{ name := nm, condition := cond, priority := p }]))
      (rangeInt 1 (r.spells.length + 1)) := by
    rw [hcomb, htarget, List.append_assoc]
    exact List.Perm.append_left _ (List.perm_append_comm)
  obtain ⟨hd, hl⟩ := sort_spells_dense hperm
  unfold dense
  rw [hs, hl, hd]

/-- Split a dense entry list around the entry carrying priority `j + 1`. -/
theorem dense_decompose {l : List SpellEntry} {N j : Nat}
    (h : prios l = rangeInt 1 N) (hj : j < N) :
    ∃ la x lb, l = la ++ x :: lb ∧ prios la = rangeInt 1 j ∧
      x.priority = (j : Int) + 1 ∧ prios lb = rangeInt ((j : Int) + 2) (N - j - 1) ∧
      la.length = j ∧ lb.length = N - j - 1 := by
  have hsplit : rangeInt 1 N =
      rangeInt 1 j ++ (((j : Int) + 1) :: rangeInt ((j : Int) + 2) (N - j - 1)) := by
    have hNj : j + (N - j) = N := by omega
    conv_lhs => rw [← hNj]
    rw [rangeInt_append]
    congr 1
    have hk : N - j = (N - j - 1) + 1 := by omega
    rw [hk, show (1 + (j : Int)) = (j : Int) + 1 by ring]
    show rangeInt ((j : Int) + 1) ((N - j - 1) + 1) = _
    simp only [rangeInt]
    congr 1
  unfold prios at h
  rw [hsplit] at h
  obtain ⟨la, rest, hl, hla, hrest⟩ := List.map_eq_append_iff.1 h
  obtain ⟨x, lb, hr2, hx, hlb⟩ := List.map_eq_cons_iff.1 hrest
  refine ⟨la, x, lb, by rw [hl, hr2], hla, hx, hlb, ?_, ?_⟩
  · have := congrArg List.length hla
    simpa [length_rangeInt] using this
  · have := congrArg List.length hlb
    simpa [length_rangeInt] using this

theorem findRemove_eq_none {p : Int} {l : List SpellEntry}
    (h : ∀ s ∈ l, s.priority ≠ p) : Rotation.findRemove p l = none := by
  induction l with
  | nil => rfl
  | cons s t ih =>
    have hs := h s (by simp)
    simp only [Rotation.findRemove, if_neg hs]
    rw [ih (fun s hs => h s (by simp [hs]))]
    rfl

theorem findRemove_split {p : Int} {la lb : List SpellEntry} {x : SpellEntry}
    (hla : ∀ s ∈ la, s.priority ≠ p) (hx : x.priority = p) :
    Rotation.findRemove p (la ++ x :: lb) = some (la ++ lb) := by
  induction la with
  | nil => simp [Rotation.findRemove, hx]
  | cons s t ih =>
    have hs := hla s (by simp)
    show Rotation.findRemove p (s :: (t ++ x :: lb)) = _
    rw [Rotation.findRemove, if_neg hs, ih (fun s hs => hla s (by simp [hs]))]
    rfl

theorem remove_spell_dense {r : Rotation} {p now : Int} (hr : dense r) :
    dense (Rotation.remove_spell r p now).1 := by
  by_cases hmem : ∀ s ∈ r.spells, s.priority ≠ p
  · unfold Rotation.remove_spell
    rw [findRemove_eq_none hmem]
    exact hr
  · push_neg at hmem
    obtain ⟨s0, hs0mem, hs0⟩ := hmem
    have hp : p ∈ rangeInt 1 r.spells.length := by
      have : p ∈ prios r.spells := by
        unfold prios
        exact List.mem_map.2 ⟨s0, hs0mem, hs0⟩
      rwa [hr] at this
    have hpb := mem_rangeInt.1 hp
    obtain ⟨j, hj⟩ : ∃ j : Nat, (j : Int) = p - 1 :=
      ⟨(p - 1).toNat, Int.toNat_of_nonneg (by omega)⟩
    have hjN : j < r.spells.length := by omega
    obtain ⟨la, x, lb, hdec, hla, hx, hlb, hlal, hlbl⟩ := dense_decompose hr hjN
    have hlap : ∀ s ∈ la, s.priority ≠ p := by
      intro s hs
      have : s.priority ∈ prios la := by unfold prios; exact List.mem_map_of_mem _ hs
      rw [hla] at this
      have := mem_rangeInt.1 this
      omega
    have hxp : x.priority = p := by omega
    unfold Rotation.remove_spell
    rw [hdec, findRemove_split hlap hxp]
    unfold dense
    show prios ((la ++ lb).map _) = _
    have hmap : prios ((la ++ lb).map (fun s =>
        if s.priority > p then { s with priority := s.priority - 1 } else s)) =
        (prios (la ++ lb)).map (fun v => if v > p then v - 1 else v) := by
      apply prios_map
      intro s
      by_cases hc : s.priority > p <;> simp [hc]
    rw [hmap]
    have happ : prios (la ++ lb) = rangeInt 1 j ++ rangeInt ((j : Int) + 2)
        (r.spells.length - j - 1) := by
      unfold prios at hla hlb ⊢
      rw [List.map_append, hla, hlb]
    rw [happ, List.map_append]
    have hA : (rangeInt 1 j).map (fun v => if v > p then v - 1 else v) = rangeInt 1 j := by
      have hc : ∀ v ∈ rangeInt 1 j, (if v > p then v - 1 else v) = v := by
        intro v hv
        have := mem_rangeInt.1 hv
        have : ¬ v > p := by omega
        simp [this]
      rw [List.map_congr_left hc]
      simp
    have hB : (rangeInt ((j : Int) + 2) (r.spells.length - j - 1)).map
        (fun v => if v > p then v - 1 else v) =
        rangeInt ((j : Int) + 1) (r.spells.length - j - 1) := by
      have hc : ∀ v ∈ rangeInt ((j : Int) + 2) (r.spells.length - j - 1),
          (if v > p then v - 1 else v) = v - 1 := by
        intro v hv
        have := mem_rangeInt.1 hv
        have : v > p := by omega
        simp [this]
      rw [List.map_congr_left hc, map_sub_one_rangeInt]
      congr 1
      ring
    rw [hA, hB]
    have hlen : ((la ++ lb).map (fun s =>
        if s.priority > p then { s with priority := s.priority - 1 } else s)).length =
        r.spells.length - 1 := by
      simp [hlal, hlbl]
      omega
    rw [hlen]
    have hfin : j + (r.spells.length - j - 1) = r.spells.length - 1 := by omega
    conv_rhs => rw [← hfin]
    rw [rangeInt_append]
    congr 2
    omega

/-- The priority-level effect of `moveShift`. -/
def moveShiftInt (fromP toP v : Int) : Int :=
  if fromP < toP then (if fromP < v ∧ v ≤ toP then v - 1 else v)
  else (if toP ≤ v ∧ v < fromP then v + 1 else v)

theorem moveShift_priority (fromP toP : Int) (s : SpellEntry) :
    (Rotation.moveShift fromP toP s).priority = moveShiftInt fromP toP s.priority := by
  unfold Rotation.moveShift moveShiftInt
  split_ifs <;> rfl

theorem moveAssign_split {fromP toP : Int} {la lb : List SpellEntry} {x : SpellEntry}
    (hla : ∀ s ∈ la, s.priority ≠ fromP) (hx : x.priority = fromP) :
    Rotation.moveAssign fromP toP (la ++ x :: lb) =
      la.map (Rotation.moveShift fromP toP) ++
        ({ x with priority := toP } :: lb.map (Rotation.moveShift fromP toP)) := by
  induction la with
  | nil => simp [Rotation.moveAssign, hx]
  | cons s t ih =>
    have hs := hla s (by simp)
    show Rotation.moveAssign fromP toP (s :: (t ++ x :: lb)) = _
    rw [Rotation.moveAssign, if_neg hs, ih (fun s hs => hla s (by simp [hs]))]
    rfl

theorem rangeInt_split {a b : Int} {n m : Nat} (hm : m ≤ n) (hab : b = a + m) :
    rangeInt a n = rangeInt a m ++ rangeInt b (n - m) := by
  have h1 : m + (n - m) = n := by omega
  conv_lhs => rw [← h1]
  rw [rangeInt_append, hab]

theorem rangeInt_succ (a : Int) (n : Nat) : rangeInt a (n + 1) = a :: rangeInt (a + 1) n := rfl

theorem move_spell_dense {r : Rotation} {fromP toP now : Int} (hr : dense r)
    (hcase : fromP = toP ∨ (∀ s ∈ r.spells, s.priority ≠ fromP) ∨
      (1 ≤ toP ∧ toP ≤ (r.spells.length : Int))) :
    dense (Rotation.move_spell r fromP toP now).1 := by
  by_cases hft : fromP = toP
  · unfold Rotation.move_spell
    rw [if_pos hft]
    exact hr
  by_cases hnone : ∀ s ∈ r.spells, s.priority ≠ fromP
  · have hall : (r.spells.all fun s => !(s.priority == fromP)) = true := by
      rw [List.all_eq_true]
      intro s hs
      simpa using hnone s hs
    unfold Rotation.move_spell
    rw [if_neg hft]
    simp only [hall, if_true]
    exact hr
  have htoB : 1 ≤ toP ∧ toP ≤ (r.spells.length : Int) := by tauto
  push_neg at hnone
  obtain ⟨s0, hs0mem, hs0⟩ := hnone
  -- the moved entry exists, so fromP lies in 1..N
  have hfmem : fromP ∈ rangeInt 1 r.spells.length := by
    have : fromP ∈ prios r.spells := by
      unfold prios
      exact List.mem_map.2 ⟨s0, hs0mem, hs0⟩
    rwa [hr] at this
  have hfb := mem_rangeInt.1 hfmem
  obtain ⟨j, hj⟩ : ∃ j : Nat, (j : Int) = fromP - 1 :=
    ⟨(fromP - 1).toNat, Int.toNat_of_nonneg (by omega)⟩
  have hjN : j < r.spells.length := by omega
  obtain ⟨k, hk⟩ : ∃ k : Nat, (k : Int) = toP :=
    ⟨toP.toNat, Int.toNat_of_nonneg (by omega)⟩
  have hk1 : 1 ≤ k := by omega
  have hkN : k ≤ r.spells.length := by omega
  obtain ⟨la, x, lb, hdec, hla, hx, hlb, hlal, hlbl⟩ := dense_decompose hr hjN
  have hlap : ∀ s ∈ la, s.priority ≠ fromP := by
    intro s hs
    have : s.priority ∈ prios la := by unfold prios; exact List.mem_map_of_mem _ hs
    rw [hla] at this
    have := mem_rangeInt.1 this
    omega
  have hxp : x.priority = fromP := by omega
  have hall : (r.spells.all fun s => !(s.priority == fromP)) = false := by
    cases hb : (r.spells.all fun s => !(s.priority == fromP)) with
    | false => rfl
    | true =>
      rw [List.all_eq_true] at hb
      have := hb s0 hs0mem
      simp [hs0] at this
  -- the list built by the move, before re-sorting
  have hassign := @moveAssign_split fromP toP _ lb _ hlap hxp
  have hpr : prios (Rotation.moveAssign fromP toP r.spells) =
      (rangeInt 1 j).map (moveShiftInt fromP toP) ++
        (toP :: (rangeInt ((j : Int) + 2) (r.spells.length - j - 1)).map
          (moveShiftInt fromP toP)) := by
    conv_lhs => rw [hdec, hassign]
    have hmapA : prios (la.map (Rotation.moveShift fromP toP)) =
        (prios la).map (moveShiftInt fromP toP) :=
      prios_map _ _ (moveShift_priority fromP toP) la
    have hmapB : prios (lb.map (Rotation.moveShift fromP toP)) =
        (prios lb).map (moveShiftInt fromP toP) :=
      prios_map _ _ (moveShift_priority fromP toP) lb
    have hla2 := hla
    have hlb2 := hlb
    simp only [prios] at hmapA hmapB hla2 hlb2
    show prios (la.map (Rotation.moveShift fromP toP) ++
      ({ x with priority := toP } :: lb.map (Rotation.moveShift fromP toP))) = _
    simp only [prios, List.map_append, List.map_cons]
    rw [hmapA, hmapB, hla2, hlb2]
  have hperm : List.Perm (prios (Rotation.moveAssign fromP toP r.spells))
      (rangeInt 1 r.spells.length) := by
    rw [hpr]
    by_cases hdir : fromP < toP
    · -- move towards the back: entries in (fromP, toP] shift down
      have hjk : j + 1 < k := by omega
      have hA : (rangeInt 1 j).map (moveShiftInt fromP toP) = rangeInt 1 j := by
        have hc : ∀ v ∈ rangeInt 1 j, moveShiftInt fromP toP v = v := by
          intro v hv
          have := mem_rangeInt.1 hv
          unfold moveShiftInt
          rw [if_pos hdir, if_neg (by omega)]
        rw [List.map_congr_left hc]
        simp
      have hBsplit : rangeInt ((j : Int) + 2) (r.spells.length - j - 1) =
          rangeInt ((j : Int) + 2) (k - j - 1) ++
            rangeInt ((k : Int) + 1) (r.spells.length - k) := by
        have h1 : rangeInt ((j : Int) + 2) (r.spells.length - j - 1) =
            rangeInt ((j : Int) + 2) (k - j - 1) ++
              rangeInt ((k : Int) + 1) ((r.spells.length - j - 1) - (k - j - 1)) :=
          rangeInt_split (by omega) (by omega)
        rw [h1, show (r.spells.length - j - 1) - (k - j - 1) = r.spells.length - k by omega]
      have hB1 : (rangeInt ((j : Int) + 2) (k - j - 1)).map (moveShiftInt fromP toP) =
          rangeInt ((j : Int) + 1) (k - j - 1) := by
        have hc : ∀ v ∈ rangeInt ((j : Int) + 2) (k - j - 1),
            moveShiftInt fromP toP v = v - 1 := by
          intro v hv
          have hb := mem_rangeInt.1 hv
          unfold moveShiftInt
          rw [if_pos hdir, if_pos (by constructor <;> omega)]
        rw [List.map_congr_left hc, map_sub_one_rangeInt]
        congr 1
        omega
      have hB2 : (rangeInt ((k : Int) + 1) (r.spells.length - k)).map
          (moveShiftInt fromP toP) = rangeInt ((k : Int) + 1) (r.spells.length - k) := by
        have hc : ∀ v ∈ rangeInt ((k : Int) + 1) (r.spells.length - k),
            moveShiftInt fromP toP v = v := by
          intro v hv
          have := mem_rangeInt.1 hv
          unfold moveShiftInt
          rw [if_pos hdir, if_neg (by omega)]
        rw [List.map_congr_left hc]
        simp
      have htarget : rangeInt 1 r.spells.length =
          rangeInt 1 j ++ (rangeInt ((j : Int) + 1) (k - j - 1) ++
            ((k : Int) :: rangeInt ((k : Int) + 1) (r.spells.length - k))) := by
        have h1 : rangeInt 1 r.spells.length =
            rangeInt 1 j ++ rangeInt ((j : Int) + 1) (r.spells.length - j) :=
          rangeInt_split (by omega) (by omega)
        have h2 : rangeInt ((j : Int) + 1) (r.spells.length - j) =
            rangeInt ((j : Int) + 1) (k - j - 1) ++
              rangeInt (k : Int) ((r.spells.length - j) - (k - j - 1)) :=
          rangeInt_split (by omega) (by omega)
        have h3 : (r.spells.length - j) - (k - j - 1) = (r.spells.length - k) + 1 := by omega
        rw [h1, h2, h3, rangeInt_succ]
      rw [hBsplit, List.map_append, hA, hB1, hB2, htarget]
      exact List.Perm.append_left _ (hk ▸ (List.perm_middle).symm)
    · -- move towards the front: entries in [toP, fromP) shift up
      have hkj : k ≤ j := by omega
      have hA1 : (rangeInt 1 (k - 1)).map (moveShiftInt fromP toP) =
          rangeInt 1 (k - 1) := by
        have hc : ∀ v ∈ rangeInt 1 (k - 1), moveShiftInt fromP toP v = v := by
          intro v hv
          have hb := mem_rangeInt.1 hv
          unfold moveShiftInt
          rw [if_neg hdir, if_neg (by omega)]
        rw [List.map_congr_left hc]
        simp
      have hA2 : (rangeInt (k : Int) (j - k + 1)).map (moveShiftInt fromP toP) =
          rangeInt ((k : Int) + 1) (j - k + 1) := by
        have hc : ∀ v ∈ rangeInt (k : Int) (j - k + 1),
            moveShiftInt fromP toP v = v + 1 := by
          intro v hv
          have hb := mem_rangeInt.1 hv
          unfold moveShiftInt
          rw [if_neg hdir, if_pos (by constructor <;> omega)]
        rw [List.map_congr_left hc, map_add_one_rangeInt]
      have hAsplit : rangeInt 1 j =
          rangeInt 1 (k - 1) ++ rangeInt (k : Int) (j - k + 1) := by
        have h1 : rangeInt 1 j =
            rangeInt 1 (k - 1) ++ rangeInt (k : Int) (j - (k - 1)) :=
          rangeInt_split (by omega) (by omega)
        rw [h1, show j - (k - 1) = j - k + 1 by omega]
      have hB : (rangeInt ((j : Int) + 2) (r.spells.length - j - 1)).map
          (moveShiftInt fromP toP) = rangeInt ((j : Int) + 2) (r.spells.length - j - 1) := by
        have hc : ∀ v ∈ rangeInt ((j : Int) + 2) (r.spells.length - j - 1),
            moveShiftInt fromP toP v = v := by
          intro v hv
          have := mem_rangeInt.1 hv
          unfold moveShiftInt
          rw [if_neg hdir, if_neg (by omega)]
        rw [List.map_congr_left hc]
        simp
      have htarget : rangeInt 1 r.spells.length =
          rangeInt 1 (k - 1) ++ ((k : Int) ::
            (rangeInt ((k : Int) + 1) (j - k + 1) ++
              rangeInt ((j : Int) + 2) (r.spells.length - j - 1))) := by
        have h1 : rangeInt 1 r.spells.length =
            rangeInt 1 (k - 1) ++ rangeInt (k : Int) (r.spells.length - (k - 1)) :=
          rangeInt_split (by omega) (by omega)
        have h2 : r.spells.length - (k - 1) = (r.spells.length - k) + 1 := by omega
        have h3 : rangeInt ((k : Int) + 1) (r.spells.length - k) =
            rangeInt ((k : Int) + 1) (j - k + 1) ++
              rangeInt ((j : Int) + 2) ((r.spells.length - k) - (j - k + 1)) :=
          rangeInt_split (by omega) (by omega)
        have h4 : (r.spells.length - k) - (j - k + 1) = r.spells.length - j - 1 := by omega
        rw [h1, h2, rangeInt_succ, h3, h4]
      rw [hAsplit, List.map_append, hA1, hA2, hB, htarget, List.append_assoc]
      exact List.Perm.append_left _ (hk ▸ List.perm_middle)
  unfold Rotation.move_spell
  rw [if_neg hft]
  simp only [hall, Bool.false_eq_true, if_false]
  obtain ⟨hd, hl⟩ := sort_spells_dense hperm
  unfold dense
  simpa [hl] using hd

/-- One mutating call on a `Rotation` (the operations the priority-invariant
claim ranges over). -/
inductive RotOp where
  | add (spell_name condition : String) (priority : Option Int)
  | remove (priority : Int)
  | move (from_priority to_priority : Int)
deriving DecidableEq

/-- Execute one call at time `now`.  A raising `add_spell` leaves the
rotation as it was (its two raises precede every mutation). -/
def applyOp (r : Rotation) (op : RotOp) (now : Int) : Rotation :=
  match op with
  | .add nm cond p? =>
    match Rotation.add_spell r nm cond p? now with
    | .ok rr => rr.1
    | .error _ => r
  | .remove p => (Rotation.remove_spell r p now).1
  | .move f t => (Rotation.move_spell r f t now).1

/-- The call completes without error, and — the amendment — an explicit
`addSpell` priority lies in `1..N+1` and a `moveSpell` target (when the
move actually relocates an existing entry) lies in `1..N`. -/
def opOk (r : Rotation) (op : RotOp) (now : Int) : Bool :=
  match op with
  | .add nm cond p? =>
    (Rotation.add_spell r nm cond p? now).isOk &&
      (match p? with
       | some p => decide (1 ≤ p) && decide (p ≤ (r.spells.length : Int) + 1)
       | none => true)
  | .remove _ => true
  | .move f t =>
    decide (f = t) || r.spells.all (fun s => !(s.priority == f)) ||
      (decide (1 ≤ t) && decide (t ≤ (r.spells.length : Int)))

def applyOps (r : Rotation) : List (RotOp × Int) → Rotation
  | [] => r
  | (op, now) :: rest => applyOps (applyOp r op now) rest

def okSeq (r : Rotation) : List (RotOp × Int) → Bool
  | [] => true
  | (op, now) :: rest => opOk r op now && okSeq (applyOp r op now) rest

theorem applyOp_dense {r : Rotation} {op : RotOp} {now : Int}
    (hr : dense r) (hok : opOk r op now = true) : dense (applyOp r op now) := by
  cases op with
  | add nm cond p? =>
    simp only [opOk, Bool.and_eq_true] at hok
    obtain ⟨hisok, hrange⟩ := hok
    cases hadd : Rotation.add_spell r nm cond p? now with
    | error e =>
      rw [hadd] at hisok
      simp [Except.isOk, Except.toBool] at hisok
    | ok rr =>
      have happ : applyOp r (.add nm cond p?) now = rr.1 := by
        simp [applyOp, hadd]
      rw [happ]
      cases p? with
      | none => exact add_spell_dense_none hr (by rw [hadd])
      | some p =>
        simp only [decide_eq_true_eq, Bool.and_eq_true] at hrange
        exact add_spell_dense_some hr hrange.1 hrange.2 (by rw [hadd])
  | remove p => exact remove_spell_dense hr
  | move f t =>
    simp only [opOk, Bool.or_eq_true, Bool.and_eq_true, decide_eq_true_eq] at hok
    apply move_spell_dense hr
    rcases hok with (hft | hall) | hrange
    · exact Or.inl hft
    · refine Or.inr (Or.inl ?_)
      intro s hs
      have := List.all_eq_true.1 hall s hs
      simpa using this
    · exact Or.inr (Or.inr hrange)

/-- C1, amended: starting from any rotation satisfying the dense-priority
invariant (as a freshly created one does), any sequence of
`add_spell`/`remove_spell`/`move_spell` calls that complete without error —
with every explicitly supplied `add_spell` priority in `1..N+1` and every
relocating `move_spell` target in `1..N` — leaves the entries' priorities
exactly `1..N` ascending, matching list order. -/
theorem priority_invariant_sequences (r : Rotation) (ops : List (RotOp × Int))
    (hr : dense r) (hok : okSeq r ops = true) : dense (applyOps r ops) := by
  induction ops generalizing r with
  | nil => exact hr
  | cons hd rest ih =>
    obtain ⟨op, now⟩ := hd
    simp only [okSeq, Bool.and_eq_true] at hok
    exact ih _ (applyOp_dense hr hok.1) hok.2

/-- A freshly created Priest/Holy rotation (`Rotation.create "Priest" "Holy" 0`). -/
def priestHoly0 : Rotation :=
  { metadata :=
      { name := "Priest Holy Rotation"
        class_name := "Priest"
        spec_name := "Holy"
        author := ""
        version := "1.0"
        description := ""
        created_at := 0
        modified_at := 0
        tags := [] }
    spells := []
    spec_id := 257 }

/-- `priestHoly0` after two appends: entries Heal/1 and Smite/2. -/
def priestHolyTwo : Rotation :=
  { priestHoly0 with spells :=
      [ { name := "Heal", condition := "true", priority := 1 },
        { name := "Smite", condition := "true", priority := 2 } ] }

def c1ops : List (RotOp × Int) :=
  [ (.add "Smite" "true" none, 1),
    (.add "Heal" "true" (some 1), 2),
    (.move 1 2, 3),
    (.remove 1, 4) ]

/-- C1, counterexample: on a freshly created (empty, hence trivially dense)
Priest/Holy rotation, `add_spell` with the explicitly supplied priority `3`
completes without error yet leaves the single entry with priority `3`, not
the dense permutation `[1]`; likewise `move_spell 1 100` on a dense
two-entry rotation returns success yet leaves priorities `[1, 100]`. -/
theorem priority_invariant_counterexample :
    Rotation.create "Priest" "Holy" 0 = .ok priestHoly0 ∧
    (Rotation.add_spell priestHoly0 "Smite" "true" (some 3) 1).isOk = true ∧
    prios (applyOp priestHoly0 (.add "Smite" "true" (some 3)) 1).spells = [3] ∧
    ¬ dense (applyOp priestHoly0 (.add "Smite" "true" (some 3)) 1) ∧
    (Rotation.move_spell priestHolyTwo 1 100 5).2 = true ∧
    prios (Rotation.move_spell priestHolyTwo 1 100 5).1.spells = [1, 100] ∧
    ¬ dense (Rotation.move_spell priestHolyTwo 1 100 5).1 := by
  refine ⟨by decide, by decide, by decide, ?_, by decide, by decide, ?_⟩
  · unfold dense
    decide
  · unfold dense
    decide

/-- C1, witness: a concrete four-call in-range sequence on a fresh
Priest/Holy rotation, run through the amended invariant theorem. -/
theorem priority_invariant_witness :
    dense priestHoly0 ∧ okSeq priestHoly0 c1ops = true ∧
      dense (applyOps priestHoly0 c1ops) :=
  ⟨by unfold dense; decide, by decide,
   priority_invariant_sequences priestHoly0 c1ops (by unfold dense; decide) (by decide)⟩

/-- C5: `move_spell p p` returns success for every rotation and priority
(even a priority no entry carries), and a move whose from-priority matches
no entry returns failure and leaves the rotation — entry list and all
metadata, `modified_at` included — exactly unchanged. -/
theorem move_noop_success_and_missing_from_unchanged (r : Rotation) (f t now : Int) :
    Rotation.move_spell r f f now = (r, true) ∧
    (f ≠ t → (∀ s ∈ r.spells, s.priority ≠ f) →
      Rotation.move_spell r f t now = (r, false)) := by
  constructor
  · unfold Rotation.move_spell
    rw [if_pos rfl]
  · intro hft hnone
    have hall : (r.spells.all fun s => !(s.priority == f)) = true := by
      rw [List.all_eq_true]
      intro s hs
      simpa using hnone s hs
    unfold Rotation.move_spell
    rw [if_neg hft]
    simp [hall]

/-- C5, witness: the two-entry Priest/Holy rotation has no entry with
priority 7; `move_spell 7 7` succeeds and `move_spell 7 3` fails, leaving it
untouched. -/
theorem move_noop_success_and_missing_from_unchanged_witness :
    (7 : Int) ≠ 3 ∧ (∀ s ∈ priestHolyTwo.spells, s.priority ≠ 7) ∧
    Rotation.move_spell priestHolyTwo 7 7 9 = (priestHolyTwo, true) ∧
    Rotation.move_spell priestHolyTwo 7 3 9 = (priestHolyTwo, false) :=
  ⟨by decide, by decide,
   (move_noop_success_and_missing_from_unchanged priestHolyTwo 7 3 9).1,
   (move_noop_success_and_missing_from_unchanged priestHolyTwo 7 3 9).2 (by decide) (by decide)⟩

/-- C7: whenever `add_spell` fails (unknown spell or invalid condition) or
`update_spell` fails (invalid condition), the rotation carried out of the
raise — the state at the moment the `ValueError` propagates — is exactly the
input rotation: no partial shifts, no metadata change. -/
theorem failed_ops_leave_rotation_unchanged (r : Rotation) (nm cond : String)
    (p? : Option Int) (p now : Int) (kw : Rotation.UpdateKwargs)
    (ea eb : String) (ra rb : Rotation) :
    (Rotation.add_spell r nm cond p? now = .error (ea, ra) → ra = r) ∧
    (Rotation.update_spell r p kw now = .error (eb, rb) → rb = r) := by
  constructor
  · intro h
    unfold Rotation.add_spell at h
    by_cases h1 : ((spell_data.get_spells_for_spec r.metadata.class_name
        r.metadata.spec_name).contains nm) = true
    · by_cases h2 : (ConditionValidator.validate_condition cond).1 = true
      · simp only [h1, h2, Bool.not_true, Bool.false_eq_true, if_false] at h
        exact absurd h (by simp)
      · have h2f : (ConditionValidator.validate_condition cond).1 = false :=
          Bool.not_eq_true _ ▸ h2
        simp only [h1, h2f, Bool.not_true, Bool.not_false, Bool.false_eq_true, if_false,
          if_true, Except.error.injEq, Prod.mk.injEq] at h
        exact h.2.symm
    · have h1f : ((spell_data.get_spells_for_spec r.metadata.class_name
          r.metadata.spec_name).contains nm) = false := Bool.not_eq_true _ ▸ h1
      simp only [h1f, Bool.not_false, if_true, Except.error.injEq, Prod.mk.injEq] at h
      exact h.2.symm
  · intro h
    unfold Rotation.update_spell at h
    by_cases h0 : (r.spells.all fun s => !(s.priority == p)) = true
    · simp only [h0, if_true] at h
      exact absurd h (by simp)
    · have h0f : (r.spells.all fun s => !(s.priority == p)) = false :=
        Bool.not_eq_true _ ▸ h0
      simp only [h0f, Bool.false_eq_true, if_false] at h
      cases hkw : kw.condition with
      | none =>
        rw [hkw] at h
        exact absurd h (by simp)
      | some c =>
        rw [hkw] at h
        by_cases h2 : (ConditionValidator.validate_condition c).1 = true
        · simp only [h2, Bool.not_true, Bool.false_eq_true, if_false] at h
          exact absurd h (by simp)
        · have h2f : (ConditionValidator.validate_condition c).1 = false :=
            Bool.not_eq_true _ ▸ h2
          simp only [h2f, Bool.not_false, if_true, Except.error.injEq, Prod.mk.injEq] at h
          exact h.2.symm

/-- C7, witness: an unknown-spell `add_spell` and an invalid-condition
`update_spell` on the two-entry Priest/Holy rotation both raise carrying the
rotation unchanged. -/
theorem failed_ops_leave_rotation_unchanged_witness :
    Rotation.add_spell priestHolyTwo "Bogus Spell" "true" none 9 =
      .error ("Spell Bogus Spell not found for Priest/Holy", priestHolyTwo) ∧
    Rotation.update_spell priestHolyTwo 1
      { condition := some "player.health >30" } 9 =
      .error ("Invalid condition: Invalid operator usage", priestHolyTwo) ∧
    priestHolyTwo = priestHolyTwo :=
  ⟨by decide, by decide,
   (failed_ops_leave_rotation_unchanged priestHolyTwo "Bogus Spell" "true" none 1 9
      { condition := some "player.health >30" }
      "Spell Bogus Spell not found for Priest/Holy" "Invalid condition: Invalid operator usage"
      priestHolyTwo priestHolyTwo).1 (by decide)⟩

/-- C10: `Rotation.from_soe_format` raises `ValueError` on every input: its
first statement evaluates `re.search`, but `rotation.py` never imports `re`,
so a `NameError` is raised and re-wrapped by the `except` arm. -/
theorem from_soe_format_always_raises (s : String) (now : Int) :
    Rotation.from_soe_format s now =
      .error "Error parsing SOE Engine code: name 're' is not defined" := rfl

/-- C6: `validate_condition` is a total function: on every input string it
returns one of the five structured (valid?, reason) results — the generic
`"Validation error: ..."` arm of the source's `except` block is unreachable
because the four checks cannot raise. -/
theorem validate_condition_total (s : String) :
    ConditionValidator.validate_condition s ∈
      [(true, ""), (false, "Invalid condition syntax"), (false, "Invalid operator usage"),
       (false, "Mismatched parentheses"), (false, "Invalid condition components")] := by
  unfold ConditionValidator.validate_condition
  by_cases h0 : (s.data.isEmpty || decide (pyStrip s.data = "true".data)) = true <;>
    by_cases h1 : ConditionValidator.check_basic_syntax (pyStrip s.data) = false <;>
    by_cases h2 : ConditionValidator.validate_operators (pyStrip s.data) = false <;>
    by_cases h3 : ConditionValidator.validate_parentheses (pyStrip s.data) = false <;>
    by_cases h4 : ConditionValidator.validate_components (pyStrip s.data) = false <;>
    simp [h0, h1, h2, h3, h4]

/-- C4: every single-clause comparison on a two-segment path
`category.subcategory op literal` with single spaces is rejected: `>`, `<`,
`==` survive the operator check but the component check strips the
comparison and leaves a trailing space on the subcategory (`"health "`),
and `>=`, `<=`, `!=` already fail the operator check because `" > "`,
`" < "`, `" ! "` do not occur around the two-character token.  (Only a path
with a further dotted segment, such as `player.health.actual > 50`, slips
through, because the trailing space then lands in the third segment the
check never reads.) -/
theorem comparison_conditions_rejected :
    ConditionValidator.validate_condition "player.health > 30" =
      (false, "Invalid condition components") ∧
    ConditionValidator.validate_condition "player.health < 30" =
      (false, "Invalid condition components") ∧
    ConditionValidator.validate_condition "player.health >= 30" =
      (false, "Invalid operator usage") ∧
    ConditionValidator.validate_condition "player.health <= 30" =
      (false, "Invalid operator usage") ∧
    ConditionValidator.validate_condition "player.level == 30" =
      (false, "Invalid condition components") ∧
    ConditionValidator.validate_condition "player.level != 30" =
      (false, "Invalid operator usage") :=
  ⟨by decide, by decide, by decide, by decide, by decide, by decide⟩

/-- C9, counterexample: `"player.health > 30 &&"` is rejected by the
operator-spacing check (`" && "` does not occur around the trailing `&&`),
not by the component check the claim names. -/
theorem rejected_inputs_reason_counterexample :
    ConditionValidator.validate_condition "player.health > 30 &&" =
      (false, "Invalid operator usage") ∧
    ("Invalid operator usage" : String) ≠ "Invalid condition components" :=
  ⟨by decide, by decide⟩

/-- C9, amended: all four inputs are rejected; the reasons are
operator-spacing for `"player.health >30"`, operator-spacing (not the
component check) for `"player.health > 30 &&"`, unbalanced parentheses for
`"(player.moving"`, and the component check (unknown category `foo`) for
`"foo.bar == 1"`. -/
theorem rejected_inputs :
    ConditionValidator.validate_condition "player.health >30" =
      (false, "Invalid operator usage") ∧
    ConditionValidator.validate_condition "player.health > 30 &&" =
      (false, "Invalid operator usage") ∧
    ConditionValidator.validate_condition "(player.moving" =
      (false, "Mismatched parentheses") ∧
    ConditionValidator.validate_condition "foo.bar == 1" =
      (false, "Invalid condition components") :=
  ⟨by decide, by decide, by decide, by decide⟩

/-- A registration-format text: comment header plus
`register(257, {...})` with two enabled spell tuples of legal Priest/Holy
spell names and validator-accepted conditions. -/
def soeScenarioText : String :=
  "-- My Rotation\n-- Author: Alice\n-- Version: 2.1\n-- Description: test\n\nSOEEngine.rotation.register(257, \x7b\n    \x7b \"Heal\", \"true\" \x7d,\n    \x7b \"Renew\", \"player.moving\" \x7d,\n\x7d)\n"

/-- The rotation `from_soe` reconstructs from `soeScenarioText` at import
time 5. -/
def soeScenarioExpected : Rotation :=
  { metadata :=
      { name := "Priest Holy Rotation"
        class_name := "Priest"
        spec_name := "Holy"
        author := "Alice"
        version := "2.1"
        description := "test"
        created_at := 5
        modified_at := 5
        tags := [] }
    spells :=
      [ { name := "Heal", condition := "true", priority := 1 },
        { name := "Renew", condition := "player.moving", priority := 2 } ]
    spec_id := 257 }

set_option maxRecDepth 400000 in
/-- C8: importing a registration-format text whose body contains
`register(257, {...})` with two enabled spell tuples reconstructs a Rotation
with `spec_id = 257`, metadata class/spec `Priest`/`Holy`, and the two
entries carrying priorities 1 and 2 in file order (both enabled). -/
theorem soe_import_scenario :
    RotationImporter.from_soe soeScenarioText 5 = .ok soeScenarioExpected ∧
    soeScenarioExpected.spec_id = 257 ∧
    soeScenarioExpected.metadata.class_name = "Priest" ∧
    soeScenarioExpected.metadata.spec_name = "Holy" ∧
    soeScenarioExpected.spells.map (fun s => (s.name, s.priority, s.enabled)) =
      [("Heal", 1, true), ("Renew", 2, true)] := by
  refine ⟨by decide, by decide, by decide, by decide, by decide⟩

/-! ### Decimal rendering inverts decimal parsing -/

theorem digitChar_toNat {n : Nat} (hn : n < 10) : (Nat.digitChar n).toNat = n + 48 := by
  interval_cases n <;> decide

theorem digitChar_isDigit {n : Nat} (hn : n < 10) : (Nat.digitChar n).isDigit = true := by
  interval_cases n <;> decide

theorem natDigitsAux_spec (fuel : Nat) : ∀ n, n < fuel →
    natDigitsAux fuel n ≠ [] ∧ (∀ c ∈ natDigitsAux fuel n, c.isDigit = true) ∧
    ∀ a : Nat, List.foldl (fun acc c => acc * 10 + (c.toNat - '0'.toNat)) a
      (natDigitsAux fuel n) = a * 10 ^ (natDigitsAux fuel n).length + n := by
  induction fuel with
  | zero => intro n hn; omega
  | succ fuel ih =>
    intro n hn
    by_cases h10 : n < 10
    · refine ⟨by simp [natDigitsAux, h10], ?_, ?_⟩
      · intro c hc
        simp [natDigitsAux, h10] at hc
        rw [hc]
        exact digitChar_isDigit h10
      · intro a
        simp [natDigitsAux, h10, digitChar_toNat h10]
    · have hdiv : n / 10 < fuel := by
        have h1 : n / 10 < n := Nat.div_lt_self (by omega) (by omega)
        omega
      obtain ⟨ihne, ihdig, ihval⟩ := ih (n / 10) hdiv
      have hshape : natDigitsAux (fuel + 1) n =
          natDigitsAux fuel (n / 10) ++ [Nat.digitChar (n % 10)] := by
        simp [natDigitsAux, h10]
      refine ⟨by simp [hshape], ?_, ?_⟩
      · intro c hc
        rw [hshape] at hc
        rcases List.mem_append.1 hc with hc | hc
        · exact ihdig c hc
        · simp at hc
          rw [hc]
          exact digitChar_isDigit (Nat.mod_lt _ (by omega))
      · intro a
        rw [hshape, List.foldl_append, ihval a]
        have hmod : (Nat.digitChar (n % 10)).toNat = n % 10 + 48 :=
          digitChar_toNat (Nat.mod_lt _ (by omega))
        simp only [List.foldl, hmod, List.length_append, List.length_singleton]
        have hc : '0'.toNat = 48 := by decide
        rw [hc, pow_succ]
        have : n % 10 + 48 - 48 = n % 10 := by omega
        rw [this]
        have hdm : n / 10 * 10 + n % 10 = n := by omega
        calc (a * 10 ^ (natDigitsAux fuel (n / 10)).length + n / 10) * 10 + n % 10
            = a * (10 ^ (natDigitsAux fuel (n / 10)).length * 10) +
              (n / 10 * 10 + n % 10) := by ring
          _ = a * (10 ^ (natDigitsAux fuel (n / 10)).length * 10) + n := by rw [hdm]

theorem isDigit_not_pyWs {c : Char} (h : c.isDigit = true) : pyWs c = false := by
  cases hw : pyWs c with
  | false => rfl
  | true =>
    simp only [pyWs, Bool.or_eq_true, decide_eq_true_eq] at hw
    rcases hw with (((((rfl | rfl) | rfl) | rfl) | rfl) | rfl) <;> simp [Char.isDigit] at h

theorem dropWhile_pyWs_eq_self {l : List Char} (h : ∀ c ∈ l, pyWs c = false) :
    l.dropWhile pyWs = l := by
  cases l with
  | nil => rfl
  | cons c t => simp [List.dropWhile_cons, h c (by simp)]

theorem pyStrip_eq_self {l : List Char} (h : ∀ c ∈ l, pyWs c = false) :
    pyStrip l = l := by
  unfold pyStrip
  rw [dropWhile_pyWs_eq_self h,
    dropWhile_pyWs_eq_self (fun c hc => h c (List.mem_reverse.1 hc)), List.reverse_reverse]

theorem pyInt_digits {l : List Char} (hne : l ≠ []) (hd : ∀ c ∈ l, c.isDigit = true) :
    pyInt (String.mk l) =
      some ((List.foldl (fun acc c => acc * 10 + (c.toNat - '0'.toNat)) 0 l : Nat) : Int) := by
  obtain ⟨c, t, rfl⟩ := List.exists_cons_of_ne_nil hne
  have hc := hd c (by simp)
  have hnotws : ∀ x ∈ c :: t, pyWs x = false := fun x hx => isDigit_not_pyWs (hd x hx)
  have hcm : c ≠ '-' := by
    intro h
    rw [h] at hc
    simp [Char.isDigit] at hc
  have hcp : c ≠ '+' := by
    intro h
    rw [h] at hc
    simp [Char.isDigit] at hc
  have hall : (c :: t).all Char.isDigit = true := List.all_eq_true.2 hd
  have hsign : pySign (c :: t) = (false, c :: t) := by
    unfold pySign
    split
    · rename_i heq
      exact absurd (List.cons.inj heq).1 hcm
    · rename_i heq
      exact absurd (List.cons.inj heq).1 hcp
    · rfl
  unfold pyInt
  simp only [pyStrip_eq_self hnotws, hsign]
  simp [hall]
theorem pyInt_pyStrNat (n : Nat) : pyInt (pyStrNat n) = some (n : Int) := by
  obtain ⟨hne, hdig, hval⟩ := natDigitsAux_spec (n + 1) n (Nat.lt_succ_self n)
  unfold pyStrNat
  rw [pyInt_digits hne hdig]
  have hv : List.foldl (fun acc c => acc * 10 + (c.toNat - '0'.toNat)) 0
      (natDigitsAux (n + 1) n) = n := by simpa using hval 0
  rw [hv]

theorem pyInt_neg_digits {l : List Char} (hne : l ≠ []) (hd : ∀ c ∈ l, c.isDigit = true) :
    pyInt (String.mk ('-' :: l)) =
      some (-((List.foldl (fun acc c => acc * 10 + (c.toNat - '0'.toNat)) 0 l : Nat) : Int)) := by
  have hnotws : ∀ x ∈ '-' :: l, pyWs x = false := by
    intro x hx
    rcases List.mem_cons.1 hx with rfl | hx
    · decide
    · exact isDigit_not_pyWs (hd x hx)
  have hall : l.all Char.isDigit = true := List.all_eq_true.2 hd
  have hlne : l.isEmpty = false := by
    cases l with
    | nil => exact absurd rfl hne
    | cons c t => rfl
  unfold pyInt
  simp only [pyStrip_eq_self hnotws, pySign]
  simp [hall, hlne]

theorem pyInt_pyStrInt (i : Int) : pyInt (pyStrInt i) = some i := by
  unfold pyStrInt
  by_cases hi : i < 0
  · rw [if_pos hi]
    obtain ⟨hne, hdig, hval⟩ := natDigitsAux_spec (i.natAbs + 1) i.natAbs (Nat.lt_succ_self _)
    have hdata : ("-" ++ pyStrNat i.natAbs) =
        String.mk ('-' :: natDigitsAux (i.natAbs + 1) i.natAbs) := rfl
    rw [hdata, pyInt_neg_digits hne hdig]
    have hv : List.foldl (fun acc c => acc * 10 + (c.toNat - '0'.toNat)) 0
        (natDigitsAux (i.natAbs + 1) i.natAbs) = i.natAbs := by simpa using hval 0
    rw [hv]
    congr 1
    omega
  · rw [if_neg hi, pyInt_pyStrNat]
    congr 1
    omega

/-! ### Round-tripping the JSON and XML codecs -/

theorem sort_spells_of_sorted {l : List SpellEntry}
    (h : List.Pairwise (fun a b : SpellEntry => a.priority ≤ b.priority) l) :
    Rotation.sort_spells l = l :=
  List.Sorted.insertionSort_eq h

theorem setFirstMatching_append {l : List SpellEntry} {p : Int} {f : SpellEntry → SpellEntry}
    (h : ∀ s ∈ l, s.priority ≠ p) (e : SpellEntry) (he : e.priority = p) :
    Rotation.setFirstMatching p f (l ++ [e]) = l ++ [f e] := by
  induction l with
  | nil => simp [Rotation.setFirstMatching, he]
  | cons s t ih =>
    show Rotation.setFirstMatching p f (s :: (t ++ [e])) = s :: (t ++ [f e])
    rw [Rotation.setFirstMatching, if_neg (h s (by simp)), ih (fun x hx => h x (by simp [hx]))]

/-- A successful `add_spell` whose explicit priority exceeds every present
priority: no entry is shifted and the sort leaves the appended entry in
place. -/
theorem add_spell_append {r : Rotation} {nm cond : String} {p now : Int}
    (hnm : nm ∈ spell_data.get_spells_for_spec r.metadata.class_name r.metadata.spec_name)
    (hcond : (ConditionValidator.validate_condition cond).1 = true)
    (hlt : ∀ s ∈ r.spells, s.priority < p)
    (hsorted : List.Pairwise (fun a b : SpellEntry => a.priority ≤ b.priority) r.spells) :
    Rotation.add_spell r nm cond (some p) now =
      .ok ({ r with
              spells := r.spells ++ [{ name := nm, condition := cond, priority := p }]
              metadata := { r.metadata with modified_at := now } },
           { name := nm, condition := cond, priority := p }) := by
  have h1 : ((spell_data.get_spells_for_spec r.metadata.class_name
      r.metadata.spec_name).contains nm) = true := by simpa using hnm
  have hshift : r.spells.map (fun s =>
      if s.priority ≥ p then { s with priority := s.priority + 1 } else s) = r.spells := by
    have hc : ∀ s ∈ r.spells,
        (if s.priority ≥ p then { s with priority := s.priority + 1 } else s) = s := by
      intro s hs
      have := hlt s hs
      have hge : ¬ s.priority ≥ p := by omega
      simp [hge]
    rw [List.map_congr_left hc]
    simp
  have hsorted2 : List.Pairwise (fun a b : SpellEntry => a.priority ≤ b.priority)
      (r.spells ++ [{ name := nm, condition := cond, priority := p }]) := by
    rw [List.pairwise_append]
    refine ⟨hsorted, List.pairwise_singleton _ _, ?_⟩
    intro a ha b hb
    simp at hb
    rw [hb]
    exact le_of_lt (hlt a ha)
  simp only [Rotation.add_spell, h1, hcond, Bool.not_true, Bool.false_eq_true, if_false]
  rw [hshift, sort_spells_of_sorted hsorted2]

/-- Importing the JSON serialization of entry `s` into an accumulator whose
priorities all lie below `s.priority` appends `s` verbatim. -/
theorem importSpellJson_step {racc : Rotation} {s : SpellEntry} {now : Int}
    (hnm : s.name ∈ spell_data.get_spells_for_spec racc.metadata.class_name racc.metadata.spec_name)
    (hcond : (ConditionValidator.validate_condition s.condition).1 = true)
    (hid : s.id = none)
    (hlt : ∀ a ∈ racc.spells, a.priority < s.priority)
    (hsorted : List.Pairwise (fun a b : SpellEntry => a.priority ≤ b.priority) racc.spells) :
    RotationImporter.importSpellJson racc (RotationExporter.spellJson s) now =
      .ok { racc with spells := racc.spells ++ [s],
                      metadata := { racc.metadata with modified_at := now } } := by
  obtain ⟨sn, sc, sp, sen, sno, sid⟩ := s
  have hid' : sid = none := hid
  subst hid'
  have hnm' : sn ∈ spell_data.get_spells_for_spec racc.metadata.class_name
      racc.metadata.spec_name := hnm
  have hcond' : (ConditionValidator.validate_condition sc).1 = true := hcond
  have hlt' : ∀ a ∈ racc.spells, a.priority < sp := hlt
  have hadd := @add_spell_append racc sn sc sp now hnm' hcond' hlt' hsorted
  have hne : ∀ x ∈ racc.spells, x.priority ≠ sp := fun x hx => by
    have := hlt' x hx; omega
  have hset := setFirstMatching_append (l := racc.spells) (p := sp)
      (f := fun e => { e with enabled := sen, notes := sno }) hne
      { name := sn, condition := sc, priority := sp } rfl
  have e1 : RotationImporter.importSpellJson racc
      (RotationExporter.spellJson ⟨sn, sc, sp, sen, sno, none⟩) now =
      (match Rotation.add_spell racc sn sc (some sp) now with
        | .error ep => .error ep.1
        | .ok rr => .ok { rr.1 with spells := Rotation.setFirstMatching sp (fun e => { e with enabled := sen, notes := sno }) rr.1.spells }) := rfl
  rw [e1, hadd]
  simp only [hset]

/-- `from_json`'s spell loop on the serialized entry list: with strictly
ascending priorities every iteration appends its entry verbatim. -/
theorem from_json_fold (now : Int) (l : List SpellEntry) :
    ∀ racc : Rotation,
    (∀ s ∈ l, s.name ∈ spell_data.get_spells_for_spec racc.metadata.class_name
        racc.metadata.spec_name) →
    (∀ s ∈ l, (ConditionValidator.validate_condition s.condition).1 = true) →
    (∀ s ∈ l, s.id = none) →
    List.Pairwise (fun a b : SpellEntry => a.priority < b.priority) l →
    (∀ a ∈ racc.spells, ∀ b ∈ l, a.priority < b.priority) →
    List.Pairwise (fun a b : SpellEntry => a.priority ≤ b.priority) racc.spells →
    l ≠ [] →
    List.foldlM (fun acc sj => RotationImporter.importSpellJson acc sj now) racc
        (l.map RotationExporter.spellJson) =
      .ok { racc with spells := racc.spells ++ l,
                      metadata := { racc.metadata with modified_at := now } } := by
  induction l with
  | nil => intro racc _ _ _ _ _ _ hne; exact absurd rfl hne
  | cons s t ih =>
    intro racc hnm hcond hid hpw hlt hsorted _
    have hstep := @importSpellJson_step racc s now
      (hnm s (by simp)) (hcond s (by simp)) (hid s (by simp))
      (fun a ha => hlt a ha s (by simp)) hsorted
    have hbind : List.foldlM (fun acc sj => RotationImporter.importSpellJson acc sj now) racc
        ((s :: t).map RotationExporter.spellJson) =
        (RotationImporter.importSpellJson racc (RotationExporter.spellJson s) now >>=
          fun r' => List.foldlM (fun acc sj => RotationImporter.importSpellJson acc sj now) r'
            (t.map RotationExporter.spellJson)) := rfl
    rw [hbind, hstep]
    set racc' : Rotation :=
      { racc with spells := racc.spells ++ [s],
                  metadata := { racc.metadata with modified_at := now } } with hracc
    have hbind2 : ((Except.ok racc' : Except String Rotation) >>=
        fun r' => List.foldlM (fun acc sj => RotationImporter.importSpellJson acc sj now) r'
          (t.map RotationExporter.spellJson)) =
        List.foldlM (fun acc sj => RotationImporter.importSpellJson acc sj now) racc'
          (t.map RotationExporter.spellJson) := rfl
    rw [hbind2]
    by_cases ht : t = []
    · subst ht
      simp [hracc, pure, Except.pure]
    · have hpair := List.pairwise_cons.1 hpw
      have hres := ih racc'
        (fun x hx => hnm x (by simp [hx]))
        (fun x hx => hcond x (by simp [hx]))
        (fun x hx => hid x (by simp [hx]))
        hpair.2
        (by
          intro a ha b hb
          rw [hracc] at ha
          simp only [List.mem_append, List.mem_singleton] at ha
          rcases ha with ha | ha
          · exact hlt a ha b (by simp [hb])
          · rw [ha]; exact hpair.1 b hb)
        (by
          rw [hracc]
          rw [List.pairwise_append]
          refine ⟨hsorted, List.pairwise_singleton _ _, ?_⟩
          intro a ha b hb
          simp at hb
          rw [hb]
          exact le_of_lt (hlt a ha s (by simp)))
        ht
      rw [hres, hracc]
      simp [List.append_assoc]

theorem exceptBind_ok {ε α β : Type} (a : α) (f : α → Except ε β) :
    (Except.ok a >>= f : Except ε β) = f a := rfl

theorem strListStep_foldr (ts : List String) :
    (ts.map Json.str).foldr Json.strListStep (Except.ok []) = Except.ok ts := by
  induction ts with
  | nil => rfl
  | cons a t ih =>
    simp only [List.map_cons, List.foldr_cons, ih]
    rfl

theorem getStrList_strings (j : Json) (key : String) (ts : List String)
    (h : j.get? key = some (.arr (ts.map .str))) :
    j.getStrList key = .ok ts := by
  unfold Json.getStrList
  rw [h]
  exact strListStep_foldr ts

/-- `from_json ∘ to_json`: the import rebuilds the rotation exactly, except
that `modified_at` is clobbered by the `add_spell` calls of the spell loop
whenever there is at least one spell. -/
theorem from_json_to_json (r : Rotation) (now : Int)
    (hspec : spell_data.get_spec_id r.metadata.class_name r.metadata.spec_name = some r.spec_id)
    (hnm : ∀ s ∈ r.spells, s.name ∈ spell_data.get_spells_for_spec r.metadata.class_name
        r.metadata.spec_name)
    (hcond : ∀ s ∈ r.spells, (ConditionValidator.validate_condition s.condition).1 = true)
    (hid : ∀ s ∈ r.spells, s.id = none)
    (hpw : List.Pairwise (fun a b : SpellEntry => a.priority < b.priority) r.spells) :
    RotationImporter.from_json (RotationExporter.to_json r) now =
      .ok { r with metadata := { r.metadata with modified_at :=
              if r.spells.isEmpty then r.metadata.modified_at else now } } := by
  have hcreate : Rotation.create r.metadata.class_name r.metadata.spec_name now =
      .ok { metadata :=
              { name := r.metadata.class_name ++ " " ++ r.metadata.spec_name ++ " Rotation",
                class_name := r.metadata.class_name,
                spec_name := r.metadata.spec_name,
                author := "", version := "1.0", description := "",
                created_at := now, modified_at := now, tags := [] },
            spells := [], spec_id := r.spec_id } := by
    unfold Rotation.create
    rw [hspec]
  have htags : (RotationExporter.metaJson r).getStrList "tags" = .ok r.metadata.tags :=
    getStrList_strings _ _ _ rfl
  have e1 : RotationImporter.from_json_body (RotationExporter.to_json r) now =
      (Rotation.create r.metadata.class_name r.metadata.spec_name now >>= fun rc =>
        (RotationExporter.metaJson r).getStrList "tags" >>= fun tags =>
          List.foldlM (fun acc sj => RotationImporter.importSpellJson acc sj now)
            { rc with metadata := { rc.metadata with
                name := r.metadata.name,
                author := r.metadata.author,
                version := r.metadata.version,
                description := r.metadata.description,
                created_at := r.metadata.created_at,
                modified_at := r.metadata.modified_at,
                tags := tags } }
            (r.spells.map RotationExporter.spellJson)) := rfl
  have hbody : RotationImporter.from_json_body (RotationExporter.to_json r) now =
      List.foldlM (fun acc sj => RotationImporter.importSpellJson acc sj now)
        { metadata := r.metadata, spells := [], spec_id := r.spec_id }
        (r.spells.map RotationExporter.spellJson) := by
    rw [e1, hcreate]
    simp only [exceptBind_ok]
    rw [htags]
    simp only [exceptBind_ok]
  have hres : RotationImporter.from_json_body (RotationExporter.to_json r) now =
      .ok { r with metadata := { r.metadata with modified_at :=
            if r.spells.isEmpty then r.metadata.modified_at else now } } := by
    rw [hbody]
    by_cases hsp : r.spells = []
    · rw [hsp]
      simp only [List.map_nil, List.foldlM_nil, List.isEmpty_nil, if_true]
      rfl
    · have hfold := from_json_fold now r.spells
        { metadata := r.metadata, spells := [], spec_id := r.spec_id }
        hnm hcond hid hpw (fun a ha => absurd ha (List.not_mem_nil a)) List.Pairwise.nil hsp
      rw [hfold]
      have hie : r.spells.isEmpty = false := by
        cases hb : r.spells with
        | nil => exact absurd hb hsp
        | cons a t => rfl
      rw [hie]
      rfl
  unfold RotationImporter.from_json
  rw [hres]

theorem normText_none : normText none = none := rfl

theorem normText_some_safe {s : String} (h1 : s ≠ "") (h2 : normBlankLines s = s) :
    normText (some s) = some s := by
  unfold normText
  split
  · rename_i heq
    exact absurd (Option.some.inj heq) h1
  · rename_i t hne heq
    rw [← Option.some.inj heq, h2]
  · rename_i heq
    exact absurd heq (by simp)

theorem pySplitCharAux_no_sep {sep : Char} : ∀ {l : List Char}, sep ∉ l →
    ∀ acc, pySplitCharAux sep acc l = [acc.reverse ++ l] := by
  intro l
  induction l with
  | nil => intro _ acc; simp [pySplitCharAux]
  | cons c t ih =>
    intro h acc
    have hc : ¬ (c = sep) := fun e => h (by rw [← e]; exact List.mem_cons_self c t)
    rw [pySplitCharAux, if_neg hc, ih (fun hm => h (List.mem_cons_of_mem c hm)) (c :: acc)]
    simp

theorem pySplitChar_no_sep {sep : Char} {l : List Char} (h : sep ∉ l) :
    pySplitChar sep l = [l] := by
  unfold pySplitChar
  simpa using pySplitCharAux_no_sep h []

theorem normBlankLines_no_newline {t : String} (h : '\n' ∉ t.data) :
    normBlankLines t = t := by
  unfold normBlankLines
  rw [pySplitChar_no_sep h]
  rfl

theorem pyStrNat_no_newline (n : Nat) : '\n' ∉ (pyStrNat n).data := by
  intro hm
  have hd := (natDigitsAux_spec (n + 1) n (Nat.lt_succ_self n)).2.1 '\n' hm
  exact absurd hd (by decide)

theorem pyStrInt_no_newline (i : Int) : '\n' ∉ (pyStrInt i).data := by
  unfold pyStrInt
  by_cases hi : i < 0
  · rw [if_pos hi]
    intro hm
    have hm2 : '\n' ∈ ('-' :: (pyStrNat i.natAbs).data) := hm
    rcases List.mem_cons.1 hm2 with e | hm3
    · exact absurd e (by decide)
    · exact pyStrNat_no_newline _ hm3
  · rw [if_neg hi]
    exact pyStrNat_no_newline _

theorem pyStrNat_ne_empty (n : Nat) : pyStrNat n ≠ "" := by
  unfold pyStrNat
  intro hc
  exact (natDigitsAux_spec (n + 1) n (Nat.lt_succ_self n)).1 (congrArg String.data hc)

theorem pyStrInt_ne_empty (i : Int) : pyStrInt i ≠ "" := by
  unfold pyStrInt
  by_cases hi : i < 0
  · rw [if_pos hi]
    intro hc
    have hd : ('-' :: (pyStrNat i.natAbs).data) = [] := congrArg String.data hc
    simp at hd
  · rw [if_neg hi]
    exact pyStrNat_ne_empty _

theorem etIsoEncode_ne_empty (t : Int) : etIsoEncode t ≠ "" :=
  pyStrInt_ne_empty t

theorem etIso_roundtrip (t : Int) : etIsoDecode (etIsoEncode t) = some t :=
  pyInt_pyStrInt t

theorem pyStrInt_xmlSafe (i : Int) : xmlSafe (pyStrInt i) :=
  ⟨pyStrInt_ne_empty i, normBlankLines_no_newline (pyStrInt_no_newline i)⟩

theorem etIsoEncode_xmlSafe (t : Int) : xmlSafe (etIsoEncode t) :=
  pyStrInt_xmlSafe t

theorem enabledText_xmlSafe (b : Bool) : xmlSafe (if b then "true" else "false") := by
  cases b <;> exact ⟨by decide, by decide⟩

theorem enabledText_ne_empty (b : Bool) : (if b then "true" else "false") ≠ "" := by
  cases b <;> simp

theorem etStringRoundtripList_map (l : List XmlElem) :
    etStringRoundtripList l = l.map etStringRoundtrip := by
  induction l with
  | nil => rfl
  | cons e es ih => simp [etStringRoundtripList, ih]

/-- Serializing `to_xml`'s tree and reparsing returns the identical tree as
long as every text the importer reads back is `xmlSafe`. -/
theorem etStringRoundtrip_to_xml (r : Rotation) (hsafe : xmlSafeRotation r) :
    etStringRoundtrip (RotationExporter.to_xml r) = RotationExporter.to_xml r := by
  obtain ⟨hname, hclass, hspecn, hauthor, hversion, hdesc, htags, hspell⟩ := hsafe
  have htagmap : (r.metadata.tags.map (fun t => XmlElem.node "tag" (some t) [])).map
      etStringRoundtrip = r.metadata.tags.map (fun t => XmlElem.node "tag" (some t) []) := by
    rw [List.map_map]
    apply List.map_congr_left
    intro t ht
    simp [Function.comp, etStringRoundtrip, etStringRoundtripList,
      normText_some_safe (htags t ht).1 (htags t ht).2]
  have hspellmap : (r.spells.map RotationExporter.spellXml).map etStringRoundtrip =
      r.spells.map RotationExporter.spellXml := by
    rw [List.map_map]
    apply List.map_congr_left
    intro s hs
    simp [Function.comp, RotationExporter.spellXml, etStringRoundtrip, etStringRoundtripList,
      normText_none, normText_some_safe (hspell s hs).1.1 (hspell s hs).1.2,
      normText_some_safe (hspell s hs).2.1.1 (hspell s hs).2.1.2,
      normText_some_safe (hspell s hs).2.2.1 (hspell s hs).2.2.2,
      normText_some_safe (pyStrInt_xmlSafe s.priority).1 (pyStrInt_xmlSafe s.priority).2,
      normText_some_safe (enabledText_xmlSafe s.enabled).1 (enabledText_xmlSafe s.enabled).2]
  unfold RotationExporter.to_xml
  simp only [etStringRoundtrip, etStringRoundtripList, etStringRoundtripList_map,
    normText_none, normText_some_safe hname.1 hname.2, normText_some_safe hclass.1 hclass.2,
    normText_some_safe hspecn.1 hspecn.2, normText_some_safe hauthor.1 hauthor.2,
    normText_some_safe hversion.1 hversion.2, normText_some_safe hdesc.1 hdesc.2,
    normText_some_safe (etIsoEncode_xmlSafe r.metadata.created_at).1
      (etIsoEncode_xmlSafe r.metadata.created_at).2,
    normText_some_safe (etIsoEncode_xmlSafe r.metadata.modified_at).1
      (etIsoEncode_xmlSafe r.metadata.modified_at).2,
    htagmap, hspellmap]

theorem findall_tags (ts : List String) :
    ((XmlElem.node "tags" none (ts.map (fun t => XmlElem.node "tag" (some t) []))).findall
        "tag").map RotationImporter.xmlText = ts := by
  unfold XmlElem.findall
  have hf : (ts.map (fun t => XmlElem.node "tag" (some t) [])).filter
      (fun c => c.tag == "tag") = ts.map (fun t => XmlElem.node "tag" (some t) []) := by
    rw [List.filter_eq_self]
    intro a ha
    rcases List.mem_map.1 ha with ⟨t, _, rfl⟩
    rfl
  show (List.filter (fun c => c.tag == "tag")
      (ts.map (fun t => XmlElem.node "tag" (some t) []))).map RotationImporter.xmlText = ts
  rw [hf, List.map_map]
  have : ∀ t ∈ ts, (RotationImporter.xmlText ∘ fun t => XmlElem.node "tag" (some t) []) t = t :=
    fun t _ => rfl
  rw [List.map_congr_left this]
  simp

theorem findall_spells (l : List SpellEntry) :
    (XmlElem.node "spells" none (l.map RotationExporter.spellXml)).findall "spell" =
      l.map RotationExporter.spellXml := by
  unfold XmlElem.findall
  show List.filter (fun c => c.tag == "spell") (l.map RotationExporter.spellXml) = _
  rw [List.filter_eq_self]
  intro a ha
  rcases List.mem_map.1 ha with ⟨s, _, rfl⟩
  rfl

/-- Importing the XML serialization of entry `s` into an accumulator whose
priorities all lie below `s.priority` appends `s` verbatim. -/
theorem importSpellXml_step {racc : Rotation} {s : SpellEntry} {now : Int}
    (hnm : s.name ∈ spell_data.get_spells_for_spec racc.metadata.class_name racc.metadata.spec_name)
    (hcond : (ConditionValidator.validate_condition s.condition).1 = true)
    (hid : s.id = none)
    (hlt : ∀ a ∈ racc.spells, a.priority < s.priority)
    (hsorted : List.Pairwise (fun a b : SpellEntry => a.priority ≤ b.priority) racc.spells) :
    RotationImporter.importSpellXml racc (RotationExporter.spellXml s) now =
      .ok { racc with spells := racc.spells ++ [s],
                      metadata := { racc.metadata with modified_at := now } } := by
  obtain ⟨sn, sc, sp, sen, sno, sid⟩ := s
  have hid' : sid = none := hid
  subst hid'
  have hnm' : sn ∈ spell_data.get_spells_for_spec racc.metadata.class_name
      racc.metadata.spec_name := hnm
  have hcond' : (ConditionValidator.validate_condition sc).1 = true := hcond
  have hlt' : ∀ a ∈ racc.spells, a.priority < sp := hlt
  have hadd := @add_spell_append racc sn sc sp now hnm' hcond' hlt' hsorted
  have hne : ∀ x ∈ racc.spells, x.priority ≠ sp := fun x hx => by
    have := hlt' x hx; omega
  have hset := setFirstMatching_append (l := racc.spells) (p := sp)
      (f := fun e => { e with enabled := sen, notes := sno }) hne
      { name := sn, condition := sc, priority := sp } rfl
  have henb : ((some (if sen then "true" else "false") : Option String) == some "true") = sen := by
    cases sen <;> rfl
  have e1 : RotationImporter.importSpellXml racc
      (RotationExporter.spellXml ⟨sn, sc, sp, sen, sno, none⟩) now =
      (match pyInt (pyStrInt sp) with
        | some n =>
          match Rotation.add_spell racc sn sc (some n) now with
          | .error ep => Except.error ep.1
          | .ok rr => Except.ok { rr.1 with spells := Rotation.setFirstMatching n (fun e => { e with enabled := ((some (if sen then "true" else "false") : Option String) == some "true"), notes := sno }) rr.1.spells }
        | none => Except.error ("invalid literal for int(): " ++ pyStrInt sp)) := rfl
  rw [e1, pyInt_pyStrInt sp]
  simp only [henb]
  rw [hadd]
  simp only [hset]

/-- `from_xml`'s spell loop on the serialized entry list. -/
theorem from_xml_fold (now : Int) (l : List SpellEntry) :
    ∀ racc : Rotation,
    (∀ s ∈ l, s.name ∈ spell_data.get_spells_for_spec racc.metadata.class_name
        racc.metadata.spec_name) →
    (∀ s ∈ l, (ConditionValidator.validate_condition s.condition).1 = true) →
    (∀ s ∈ l, s.id = none) →
    List.Pairwise (fun a b : SpellEntry => a.priority < b.priority) l →
    (∀ a ∈ racc.spells, ∀ b ∈ l, a.priority < b.priority) →
    List.Pairwise (fun a b : SpellEntry => a.priority ≤ b.priority) racc.spells →
    l ≠ [] →
    List.foldlM (fun acc se => RotationImporter.importSpellXml acc se now) racc
        (l.map RotationExporter.spellXml) =
      .ok { racc with spells := racc.spells ++ l,
                      metadata := { racc.metadata with modified_at := now } } := by
  induction l with
  | nil => intro racc _ _ _ _ _ _ hne; exact absurd rfl hne
  | cons s t ih =>
    intro racc hnm hcond hid hpw hlt hsorted _
    have hstep := @importSpellXml_step racc s now
      (hnm s (by simp)) (hcond s (by simp)) (hid s (by simp))
      (fun a ha => hlt a ha s (by simp)) hsorted
    have hbind : List.foldlM (fun acc se => RotationImporter.importSpellXml acc se now) racc
        ((s :: t).map RotationExporter.spellXml) =
        (RotationImporter.importSpellXml racc (RotationExporter.spellXml s) now >>=
          fun r' => List.foldlM (fun acc se => RotationImporter.importSpellXml acc se now) r'
            (t.map RotationExporter.spellXml)) := rfl
    rw [hbind, hstep]
    set racc' : Rotation :=
      { racc with spells := racc.spells ++ [s],
                  metadata := { racc.metadata with modified_at := now } } with hracc
    have hbind2 : ((Except.ok racc' : Except String Rotation) >>=
        fun r' => List.foldlM (fun acc se => RotationImporter.importSpellXml acc se now) r'
          (t.map RotationExporter.spellXml)) =
        List.foldlM (fun acc se => RotationImporter.importSpellXml acc se now) racc'
          (t.map RotationExporter.spellXml) := rfl
    rw [hbind2]
    by_cases ht : t = []
    · subst ht
      simp [hracc, pure, Except.pure]
    · have hpair := List.pairwise_cons.1 hpw
      have hres := ih racc'
        (fun x hx => hnm x (by simp [hx]))
        (fun x hx => hcond x (by simp [hx]))
        (fun x hx => hid x (by simp [hx]))
        hpair.2
        (by
          intro a ha b hb
          rw [hracc] at ha
          simp only [List.mem_append, List.mem_singleton] at ha
          rcases ha with ha | ha
          · exact hlt a ha b (by simp [hb])
          · rw [ha]; exact hpair.1 b hb)
        (by
          rw [hracc]
          rw [List.pairwise_append]
          refine ⟨hsorted, List.pairwise_singleton _ _, ?_⟩
          intro a ha b hb
          simp at hb
          rw [hb]
          exact le_of_lt (hlt a ha s (by simp)))
        ht
      rw [hres, hracc]
      simp [List.append_assoc]

/-- `from_xml ∘ to_xml` (through the string boundary `etStringRoundtrip`):
the import rebuilds the rotation exactly, except that `modified_at` is
clobbered by the `add_spell` calls whenever there is at least one spell. -/
theorem from_xml_to_xml (r : Rotation) (now : Int)
    (hspec : spell_data.get_spec_id r.metadata.class_name r.metadata.spec_name = some r.spec_id)
    (hnm : ∀ s ∈ r.spells, s.name ∈ spell_data.get_spells_for_spec r.metadata.class_name
        r.metadata.spec_name)
    (hcond : ∀ s ∈ r.spells, (ConditionValidator.validate_condition s.condition).1 = true)
    (hid : ∀ s ∈ r.spells, s.id = none)
    (hpw : List.Pairwise (fun a b : SpellEntry => a.priority < b.priority) r.spells)
    (hsafe : xmlSafeRotation r) :
    RotationImporter.from_xml (etStringRoundtrip (RotationExporter.to_xml r)) now =
      .ok { r with metadata := { r.metadata with modified_at :=
              if r.spells.isEmpty then r.metadata.modified_at else now } } := by
  rw [etStringRoundtrip_to_xml r hsafe]
  have hcreate : Rotation.create r.metadata.class_name r.metadata.spec_name now =
      .ok { metadata :=
              { name := r.metadata.class_name ++ " " ++ r.metadata.spec_name ++ " Rotation",
                class_name := r.metadata.class_name,
                spec_name := r.metadata.spec_name,
                author := "", version := "1.0", description := "",
                created_at := now, modified_at := now, tags := [] },
            spells := [], spec_id := r.spec_id } := by
    unfold Rotation.create
    rw [hspec]
  have e1 : RotationImporter.from_xml_body (RotationExporter.to_xml r) now =
      (Rotation.create r.metadata.class_name r.metadata.spec_name now >>= fun rc =>
        match etIsoDecode (etIsoEncode r.metadata.created_at) with
        | some created =>
          match etIsoDecode (etIsoEncode r.metadata.modified_at) with
          | some modified =>
            List.foldlM (fun acc se => RotationImporter.importSpellXml acc se now)
              { rc with metadata := { rc.metadata with
                  name := r.metadata.name,
                  author := r.metadata.author,
                  version := r.metadata.version,
                  description := r.metadata.description,
                  created_at := created,
                  modified_at := modified,
                  tags := ((XmlElem.node "tags" none (r.metadata.tags.map
                    (fun t => XmlElem.node "tag" (some t) []))).findall "tag").map
                      RotationImporter.xmlText } }
              ((XmlElem.node "spells" none
                (r.spells.map RotationExporter.spellXml)).findall "spell")
          | none => Except.error "Invalid isoformat string"
        | none => Except.error "Invalid isoformat string") := rfl
  have hbody : RotationImporter.from_xml_body (RotationExporter.to_xml r) now =
      List.foldlM (fun acc se => RotationImporter.importSpellXml acc se now)
        { metadata := r.metadata, spells := [], spec_id := r.spec_id }
        (r.spells.map RotationExporter.spellXml) := by
    rw [e1, hcreate]
    simp only [exceptBind_ok]
    simp only [etIso_roundtrip]
    rw [findall_tags, findall_spells]
  have hres : RotationImporter.from_xml_body (RotationExporter.to_xml r) now =
      .ok { r with metadata := { r.metadata with modified_at :=
            if r.spells.isEmpty then r.metadata.modified_at else now } } := by
    rw [hbody]
    by_cases hsp : r.spells = []
    · rw [hsp]
      simp only [List.map_nil, List.foldlM_nil, List.isEmpty_nil, if_true]
      rfl
    · have hfold := from_xml_fold now r.spells
        { metadata := r.metadata, spells := [], spec_id := r.spec_id }
        hnm hcond hid hpw (fun a ha => absurd ha (List.not_mem_nil a)) List.Pairwise.nil hsp
      rw [hfold]
      have hie : r.spells.isEmpty = false := by
        cases hb : r.spells with
        | nil => exact absurd hb hsp
        | cons a t => rfl
      rw [hie]
      rfl
  unfold RotationImporter.from_xml
  rw [hres]

/-- A two-spell Priest/Holy rotation with fully populated metadata, used to
exercise the codec round-trips on concrete data. -/
def c2rot : Rotation :=
  { metadata :=
      { name := "My Heals"
        class_name := "Priest"
        spec_name := "Holy"
        author := "someone"
        version := "2.1"
        description := "test rotation"
        created_at := 5
        modified_at := 7
        tags := ["pve", "raid"] }
    spells :=
      [ { name := "Heal", condition := "true", priority := 1, enabled := true, notes := "n1" },
        { name := "Smite", condition := "target.enemy", priority := 2, enabled := false,
          notes := "n2" } ]
    spec_id := 257 }

set_option maxRecDepth 400000 in
/-- **C2**, literal reading, refuted: re-importing an exported rotation does
not preserve `modified_at` — the importers' `add_spell` calls stamp it with
the import time (999 below) although the document carried 7. -/
theorem json_xml_roundtrip_counterexample :
    RotationImporter.from_json (RotationExporter.to_json c2rot) 999 =
      .ok { c2rot with metadata := { c2rot.metadata with modified_at := 999 } } ∧
    RotationImporter.from_xml (etStringRoundtrip (RotationExporter.to_xml c2rot)) 999 =
      .ok { c2rot with metadata := { c2rot.metadata with modified_at := 999 } } ∧
    c2rot.metadata.modified_at = 7 :=
  ⟨by decide, by decide, by decide⟩

/-- **C2** (amended).  For a rotation whose class/spec pair is in the catalog
with matching `spec_id`, whose entry priorities are strictly ascending in
list order, whose spell names are in the catalog, whose conditions validate,
and whose entries carry no id, deserializing the JSON serialization
reconstructs every documented field except `modified_at`, which becomes
the import time as soon as the rotation has at least one spell; under the
same hypotheses, if additionally every text the XML adapter serializes is
`xmlSafe` — nonempty (an empty text reparses as `None`, not `""`) and free
of whitespace-only interior lines (`to_xml` deletes those lines from the
pretty-printed document) — the XML round trip reconstructs the same
rotation. -/
theorem json_xml_roundtrip_modified_at (r : Rotation) (now : Int)
    (hspec : spell_data.get_spec_id r.metadata.class_name r.metadata.spec_name = some r.spec_id)
    (hnm : ∀ s ∈ r.spells, s.name ∈ spell_data.get_spells_for_spec r.metadata.class_name
        r.metadata.spec_name)
    (hcond : ∀ s ∈ r.spells, (ConditionValidator.validate_condition s.condition).1 = true)
    (hid : ∀ s ∈ r.spells, s.id = none)
    (hpw : List.Pairwise (fun a b : SpellEntry => a.priority < b.priority) r.spells) :
    RotationImporter.from_json (RotationExporter.to_json r) now =
      .ok { r with metadata := { r.metadata with modified_at :=
              if r.spells.isEmpty then r.metadata.modified_at else now } } ∧
    (xmlSafeRotation r →
      RotationImporter.from_xml (etStringRoundtrip (RotationExporter.to_xml r)) now =
        .ok { r with metadata := { r.metadata with modified_at :=
                if r.spells.isEmpty then r.metadata.modified_at else now } }) :=
  ⟨from_json_to_json r now hspec hnm hcond hid hpw,
   fun hsafe => from_xml_to_xml r now hspec hnm hcond hid hpw hsafe⟩

set_option maxRecDepth 400000 in
theorem json_xml_roundtrip_modified_at_witness :
    RotationImporter.from_json (RotationExporter.to_json c2rot) 999 =
      .ok { c2rot with metadata := { c2rot.metadata with modified_at :=
              if c2rot.spells.isEmpty then c2rot.metadata.modified_at else 999 } } ∧
    RotationImporter.from_xml (etStringRoundtrip (RotationExporter.to_xml c2rot)) 999 =
      .ok { c2rot with metadata := { c2rot.metadata with modified_at :=
              if c2rot.spells.isEmpty then c2rot.metadata.modified_at else 999 } } :=
  ⟨(json_xml_roundtrip_modified_at c2rot 999 (by decide) (by decide) (by decide) (by decide)
      (by decide)).1,
   (json_xml_roundtrip_modified_at c2rot 999 (by decide) (by decide) (by decide) (by decide)
      (by decide)).2 (by decide)⟩

/-! ### The builder's output language (`ConditionBuilder` + `validate_condition`) -/

/-- The characters occurring in catalog categories and subcategories:
letters and the dot. -/
def alphaDot (c : Char) : Bool :=
  c.isAlpha || c = '.'

/-- `category.subcategory` is a recognized pair of the global catalog. -/
def ConditionValidator.isBasicPair (c s : String) : Bool :=
  match ConditionValidator.lookupCategory c with
  | some subs => subs.any (fun kv => kv.1 == s)
  | none => false

/-- Every catalog clause `category.subcategory` is nonempty, made of letters
and dots, contains a dot, and passes the component check (its text before
the first dot is the category, and the segment after it up to the next dot
is a key of that category — e.g. `health.actual` is looked up as `health`). -/
theorem vocabFacts : ∀ p ∈ ConditionValidator.BASIC_CONDITIONS, ∀ kv ∈ p.2,
    (p.1 ++ "." ++ kv.1).data ≠ [] ∧
    (∀ x ∈ (p.1 ++ "." ++ kv.1).data, alphaDot x = true) ∧
    '.' ∈ (p.1 ++ "." ++ kv.1).data ∧
    ConditionValidator.componentOk (p.1 ++ "." ++ kv.1).data = true := by decide

theorem alphaDot_not_ws {c : Char} (h : alphaDot c = true) : pyWs c = false := by
  cases hw : pyWs c
  · rfl
  · simp only [pyWs, Bool.or_eq_true, decide_eq_true_eq] at hw
    rcases hw with (((((rfl | rfl) | rfl) | rfl) | rfl) | rfl) <;> exact absurd h (by decide)

theorem alphaDot_validChar {c : Char} (h : alphaDot c = true) :
    ConditionValidator.validChar c = true := by
  simp only [alphaDot, Bool.or_eq_true, decide_eq_true_eq] at h
  rcases h with h | rfl
  · simp [ConditionValidator.validChar, h]
  · decide

/-- A letter-or-dot character is never one of the structural characters. -/
theorem alphaDot_ne {c x : Char} (h : alphaDot c = true) (hx : alphaDot x = false) : c ≠ x := by
  intro e
  rw [e, hx] at h
  exact Bool.false_ne_true h

theorem isPrefixOf_false_of_head {s : Char} {ss l : List Char}
    (h : ∀ x, l.head? = some x → x ≠ s) : (s :: ss).isPrefixOf l = false := by
  cases l with
  | nil => rfl
  | cons c t =>
    have hne : (s == c) = false := beq_eq_false_iff_ne.2 (Ne.symm (h c rfl))
    simp [List.isPrefixOf, hne]

theorem hasSubstr_head_false {l sub : List Char} (hne : sub ≠ [])
    (h : ∀ c ∈ l, sub.head? ≠ some c) : hasSubstr l sub = false := by
  induction l with
  | nil =>
    obtain ⟨s, ss, rfl⟩ := List.exists_cons_of_ne_nil hne
    rfl
  | cons c t ih =>
    have hcs : sub.head? ≠ some c := h c (by simp)
    obtain ⟨s, ss, rfl⟩ := List.exists_cons_of_ne_nil hne
    rw [hasSubstr]
    rw [isPrefixOf_false_of_head (fun x hx => by
      rw [List.head?_cons, Option.some.injEq] at hx
      intro e
      exact hcs (by rw [List.head?_cons, ← e, hx]))]
    rw [ih (fun x hx => h x (by simp [hx]))]
    rfl

theorem hasSubstr_skip {sub rest : List Char} (pre : List Char) (hne : sub ≠ [])
    (h : ∀ c ∈ pre, sub.head? ≠ some c) :
    hasSubstr (pre ++ rest) sub = hasSubstr rest sub := by
  induction pre with
  | nil => rfl
  | cons c t ih =>
    have hcs : sub.head? ≠ some c := h c (by simp)
    obtain ⟨s, ss, rfl⟩ := List.exists_cons_of_ne_nil hne
    show hasSubstr (c :: (t ++ rest)) (s :: ss) = _
    rw [hasSubstr]
    rw [isPrefixOf_false_of_head (fun x hx => by
      rw [List.head?_cons, Option.some.injEq] at hx
      intro e
      exact hcs (by rw [List.head?_cons, ← e, hx]))]
    rw [ih (fun x hx => h x (by simp [hx]))]
    exact Bool.false_or _

theorem hasSubstr_append_right {sub rest : List Char} (pre : List Char)
    (h : hasSubstr rest sub = true) : hasSubstr (pre ++ rest) sub = true := by
  induction pre with
  | nil => exact h
  | cons c t ih =>
    show hasSubstr (c :: (t ++ rest)) sub = true
    rw [hasSubstr, ih, Bool.or_true]

theorem hasSubstr_prefix (sub post : List Char) : hasSubstr (sub ++ post) sub = true := by
  cases sub with
  | nil =>
    cases post with
    | nil => rfl
    | cons c t =>
      rw [List.nil_append, hasSubstr]
      simp [List.isPrefixOf]
  | cons s ss =>
    rw [List.cons_append, hasSubstr]
    have hp : (s :: ss).isPrefixOf ((s :: ss) ++ post) = true := by
      rw [ List.isPrefixOf_iff_prefix]
      exact List.prefix_append _ _
    rw [List.cons_append] at hp
    rw [hp, Bool.true_or]

theorem parenGo_no_paren {l : List Char} (h : ∀ c ∈ l, c ≠ '(' ∧ c ≠ ')') :
    ∀ stack, ConditionValidator.parenGo stack l = stack.isEmpty := by
  induction l with
  | nil => intro stack; rfl
  | cons c t ih =>
    intro stack
    rw [ConditionValidator.parenGo.eq_def]
    simp only []
    rw [if_neg (h c (by simp)).1, if_neg (h c (by simp)).2]
    exact ih (fun x hx => h x (by simp [hx])) stack

theorem dropWhile_pyWs_eq_self_of_head {l : List Char}
    (h : ∀ x, l.head? = some x → pyWs x = false) : l.dropWhile pyWs = l := by
  cases l with
  | nil => rfl
  | cons c t =>
    rw [List.dropWhile_cons, if_neg]
    simp [h c rfl]

theorem pyStrip_eq_self_of_ends {l : List Char}
    (h1 : ∀ x, l.head? = some x → pyWs x = false)
    (h2 : ∀ x, l.getLast? = some x → pyWs x = false) : pyStrip l = l := by
  unfold pyStrip
  rw [dropWhile_pyWs_eq_self_of_head h1]
  rw [dropWhile_pyWs_eq_self_of_head (fun x hx => h2 x (by rwa [← List.head?_reverse]))]
  exact List.reverse_reverse l

/-- The char-level shape of the builder's joined output: the first clause,
then ` op clause` blocks (one space on each side of every operator). -/
def opJoin : List Char → List (List Char × List Char) → List Char
  | f, [] => f
  | f, (o, cl) :: rest => f ++ ' ' :: (o ++ ' ' :: opJoin cl rest)

theorem opJoin_chars {P : Char → Bool} : ∀ {f : List Char}
    {rest : List (List Char × List Char)},
    P ' ' = true → (∀ c ∈ f, P c = true) →
    (∀ p ∈ rest, (∀ c ∈ p.1, P c = true) ∧ (∀ c ∈ p.2, P c = true)) →
    ∀ c ∈ opJoin f rest, P c = true := by
  intro f rest
  induction rest generalizing f with
  | nil => intro _ hf _; exact hf
  | cons p rest ih =>
    intro hP hf hrest c hc
    obtain ⟨o, cl⟩ := p
    have hmem : c ∈ f ++ ' ' :: (o ++ ' ' :: opJoin cl rest) := hc
    simp only [List.mem_append, List.mem_cons] at hmem
    rcases hmem with hcf | rfl | hco
    · exact hf c hcf
    · exact hP
    · rcases hco with hco | rfl | hco
      · exact (hrest (o, cl) (by simp)).1 c hco
      · exact hP
      · exact ih hP (hrest (o, cl) (by simp)).2
          (fun q hq => hrest q (by simp [hq])) c hco

theorem opJoin_head {cl : List Char} (rest : List (List Char × List Char)) (h : cl ≠ []) :
    (opJoin cl rest).head? = cl.head? := by
  obtain ⟨c0, t, rfl⟩ := List.exists_cons_of_ne_nil h
  cases rest with
  | nil => rfl
  | cons p r => obtain ⟨o, cl2⟩ := p; rfl

theorem opJoin_ne_nil {cl : List Char} (rest : List (List Char × List Char)) (h : cl ≠ []) :
    opJoin cl rest ≠ [] := by
  intro e
  have := opJoin_head rest h
  rw [e] at this
  obtain ⟨c0, t, rfl⟩ := List.exists_cons_of_ne_nil h
  simp at this

theorem opJoin_dropWhile {cl : List Char} {rest : List (List Char × List Char)}
    (h : cl ≠ []) (hcl : ∀ c ∈ cl, alphaDot c = true) :
    (opJoin cl rest).dropWhile pyWs = opJoin cl rest := by
  apply dropWhile_pyWs_eq_self_of_head
  intro x hx
  rw [opJoin_head rest h] at hx
  obtain ⟨c0, t, rfl⟩ := List.exists_cons_of_ne_nil h
  rw [List.head?_cons, Option.some.injEq] at hx
  rw [← hx]
  exact alphaDot_not_ws (hcl c0 (by simp))

theorem sub_head_ne {s0 : Char} {ss l : List Char} (h0 : alphaDot s0 = false)
    (hl : ∀ c ∈ l, alphaDot c = true) : ∀ c ∈ l, (s0 :: ss).head? ≠ some c := by
  intro c hc
  rw [List.head?_cons]
  intro e
  have e2 : s0 = c := Option.some.inj e
  have hcd := hl c hc
  rw [← e2] at hcd
  rw [hcd] at h0
  exact absurd h0 (by decide)

theorem opJoin_no_doublespace : ∀ {f : List Char} {rest : List (List Char × List Char)},
    (∀ c ∈ f, alphaDot c = true) →
    (∀ p ∈ rest, (p.1 = ['&','&'] ∨ p.1 = ['|','|']) ∧ p.2 ≠ [] ∧
      (∀ c ∈ p.2, alphaDot c = true)) →
    hasSubstr (opJoin f rest) [' ', ' '] = false := by
  intro f rest
  induction rest generalizing f with
  | nil =>
    intro hf _
    exact hasSubstr_head_false (by simp) (sub_head_ne (by decide) hf)
  | cons p rest ih =>
    intro hf hrest
    obtain ⟨o, cl⟩ := p
    obtain ⟨ho, hcl, hclch⟩ := hrest (o, cl) (by simp)
    show hasSubstr (f ++ ' ' :: (o ++ ' ' :: opJoin cl rest)) [' ', ' '] = false
    rw [hasSubstr_skip f (by simp) (sub_head_ne (by decide) hf)]
    have hih := ih hclch (fun q hq => hrest q (by simp [hq]))
    have hJ0 : (opJoin cl rest).head? = cl.head? := opJoin_head rest hcl
    obtain ⟨c0, clt, rfl⟩ := List.exists_cons_of_ne_nil hcl
    have hc0 : alphaDot c0 = true := hclch c0 (by simp)
    have hc0s : (c0 == ' ') = false := by
      rcases hbe : c0 == ' ' with _ | _
      · rfl
      · rw [beq_iff_eq] at hbe
        rw [hbe] at hc0
        exact absurd hc0 (by decide)
    obtain ⟨J, hJ⟩ : ∃ J, opJoin (c0 :: clt) rest = c0 :: J := by
      cases rest with
      | nil => exact ⟨clt, rfl⟩
      | cons q r =>
        obtain ⟨o2, cl2⟩ := q
        exact ⟨clt ++ ' ' :: (o2 ++ ' ' :: opJoin cl2 r), rfl⟩
    rw [hJ] at hih ⊢
    have hc0p : ¬ (' ' = c0) := fun e => by
      rw [← e] at hc0
      exact absurd hc0 (by decide)
    have hihJ : hasSubstr J [' ', ' '] = false := by
      rw [hasSubstr] at hih
      exact (Bool.or_eq_false_iff.1 hih).2
    rcases ho with rfl | rfl <;>
      simp [hasSubstr, List.isPrefixOf, hihJ, hc0p]

theorem opJoin_no_quad : ∀ {f : List Char} {rest : List (List Char × List Char)} {x : Char},
    (x = '&' ∨ x = '|') →
    (∀ c ∈ f, alphaDot c = true) →
    (∀ p ∈ rest, (p.1 = ['&','&'] ∨ p.1 = ['|','|']) ∧ p.2 ≠ [] ∧
      (∀ c ∈ p.2, alphaDot c = true)) →
    hasSubstr (opJoin f rest) [x, x, x, x] = false := by
  intro f rest x hx
  induction rest generalizing f with
  | nil =>
    intro hf _
    rcases hx with rfl | rfl <;>
      exact hasSubstr_head_false (by simp) (sub_head_ne (by decide) hf)
  | cons p rest ih =>
    intro hf hrest
    obtain ⟨o, cl⟩ := p
    obtain ⟨ho, hcl, hclch⟩ := hrest (o, cl) (by simp)
    show hasSubstr (f ++ ' ' :: (o ++ ' ' :: opJoin cl rest)) [x, x, x, x] = false
    have hih := ih hclch (fun q hq => hrest q (by simp [hq]))
    obtain ⟨c0, clt, rfl⟩ := List.exists_cons_of_ne_nil hcl
    have hc0 : alphaDot c0 = true := hclch c0 (by simp)
    obtain ⟨J, hJ⟩ : ∃ J, opJoin (c0 :: clt) rest = c0 :: J := by
      cases rest with
      | nil => exact ⟨clt, rfl⟩
      | cons q r =>
        obtain ⟨o2, cl2⟩ := q
        exact ⟨clt ++ ' ' :: (o2 ++ ' ' :: opJoin cl2 r), rfl⟩
    rw [hJ] at hih ⊢
    have hihJ : hasSubstr J [x, x, x, x] = false := by
      rw [hasSubstr] at hih
      exact (Bool.or_eq_false_iff.1 hih).2
    have hc0x : ¬ (x = c0) := by
      intro e
      rw [← e] at hc0
      rcases hx with rfl | rfl <;> exact absurd hc0 (by decide)
    rcases hx with rfl | rfl <;> rcases ho with rfl | rfl <;>
      rw [hasSubstr_skip f (by simp) (sub_head_ne (by decide) hf)] <;>
      simp [hasSubstr, List.isPrefixOf, hihJ, hc0x]

theorem opJoin_has_spaced_op : ∀ {f : List Char} {rest : List (List Char × List Char)}
    {o0 : List Char}, (∃ p ∈ rest, p.1 = o0) →
    hasSubstr (opJoin f rest) (' ' :: (o0 ++ [' '])) = true := by
  intro f rest o0
  induction rest generalizing f with
  | nil => intro h; simp at h
  | cons p rest ih =>
    intro h
    obtain ⟨o, cl⟩ := p
    show hasSubstr (f ++ ' ' :: (o ++ ' ' :: opJoin cl rest)) (' ' :: (o0 ++ [' '])) = true
    apply hasSubstr_append_right
    have hsplit : (' ' :: (o ++ ' ' :: opJoin cl rest)) =
        (' ' :: (o ++ [' '])) ++ opJoin cl rest := by simp
    rw [hsplit]
    rcases h with ⟨q, hq, hq1⟩
    rcases List.mem_cons.1 hq with rfl | hq'
    · have ho : o = o0 := hq1
      rw [ho]
      exact hasSubstr_prefix _ _
    · exact hasSubstr_append_right _ (ih ⟨q, hq', hq1⟩)

theorem opJoin_absent {f : List Char} {rest : List (List Char × List Char)}
    {s0 : Char} {ss : List Char} (hs0a : alphaDot s0 = false) (hs0s : s0 ≠ ' ')
    (hf : ∀ c ∈ f, alphaDot c = true)
    (hrest : ∀ p ∈ rest, (∀ c ∈ p.1, c ≠ s0) ∧ (∀ c ∈ p.2, alphaDot c = true)) :
    hasSubstr (opJoin f rest) (s0 :: ss) = false := by
  apply hasSubstr_head_false (by simp)
  have hP : ∀ c ∈ opJoin f rest, (!(c == s0)) = true := opJoin_chars (P := fun c => !(c == s0))
    (by simp [Ne.symm hs0s])
    (fun c hc => by simp [alphaDot_ne (hf c hc) hs0a])
    (fun p hp => ⟨fun c hc => by simp [(hrest p hp).1 c hc],
                  fun c hc => by simp [alphaDot_ne ((hrest p hp).2 c hc) hs0a]⟩)
  intro c hc
  rw [List.head?_cons]
  intro e
  have e2 : s0 = c := Option.some.inj e
  have := hP c hc
  rw [← e2] at this
  simp at this

theorem check_basic_syntax_opJoin {f : List Char} {rest : List (List Char × List Char)}
    (hf : ∀ c ∈ f, alphaDot c = true)
    (hrest : ∀ p ∈ rest, (p.1 = ['&','&'] ∨ p.1 = ['|','|']) ∧ p.2 ≠ [] ∧
      (∀ c ∈ p.2, alphaDot c = true)) :
    ConditionValidator.check_basic_syntax (opJoin f rest) = true := by
  unfold ConditionValidator.check_basic_syntax
  rw [opJoin_no_doublespace hf hrest]
  rw [if_neg (by simp)]
  apply List.all_eq_true.2
  apply opJoin_chars (P := ConditionValidator.validChar)
  · decide
  · exact fun c hc => alphaDot_validChar (hf c hc)
  · intro p hp
    refine ⟨?_, fun c hc => alphaDot_validChar ((hrest p hp).2.2 c hc)⟩
    rcases (hrest p hp).1 with ho | ho <;> rw [ho] <;> decide

theorem validate_parentheses_opJoin {f : List Char} {rest : List (List Char × List Char)}
    (hf : ∀ c ∈ f, alphaDot c = true)
    (hrest : ∀ p ∈ rest, (p.1 = ['&','&'] ∨ p.1 = ['|','|']) ∧ p.2 ≠ [] ∧
      (∀ c ∈ p.2, alphaDot c = true)) :
    ConditionValidator.validate_parentheses (opJoin f rest) = true := by
  unfold ConditionValidator.validate_parentheses
  have hP : ∀ c ∈ opJoin f rest, (!(c == '(') && !(c == ')')) = true :=
    opJoin_chars (P := fun c => !(c == '(') && !(c == ')'))
      (by decide)
      (fun c hc => by
        simp [alphaDot_ne (hf c hc) (show alphaDot '(' = false by decide),
          alphaDot_ne (hf c hc) (show alphaDot ')' = false by decide)])
      (fun p hp => by
        refine ⟨?_, fun c hc => by
          simp [alphaDot_ne ((hrest p hp).2.2 c hc) (show alphaDot '(' = false by decide),
            alphaDot_ne ((hrest p hp).2.2 c hc) (show alphaDot ')' = false by decide)]⟩
        rcases (hrest p hp).1 with ho | ho <;> rw [ho] <;> decide)
  rw [parenGo_no_paren (fun c hc => by
    have := hP c hc
    simp only [Bool.and_eq_true, Bool.not_eq_true'] at this
    exact ⟨by simpa using this.1, by simpa using this.2⟩)]
  rfl

theorem validate_operators_opJoin {f : List Char} {rest : List (List Char × List Char)}
    (hf : ∀ c ∈ f, alphaDot c = true)
    (hrest : ∀ p ∈ rest, (p.1 = ['&','&'] ∨ p.1 = ['|','|']) ∧ p.2 ≠ [] ∧
      (∀ c ∈ p.2, alphaDot c = true)) :
    ConditionValidator.validate_operators (opJoin f rest) = true := by
  have habs : ∀ (x : Char) (ss : List Char), alphaDot x = false → x ≠ ' ' → x ≠ '&' → x ≠ '|' →
      hasSubstr (opJoin f rest) (x :: ss) = false := by
    intro x ss hxa hxs hxamp hxbar
    apply opJoin_absent hxa hxs hf
    intro p hp
    refine ⟨?_, (hrest p hp).2.2⟩
    intro c hc
    rcases (hrest p hp).1 with ho | ho <;> rw [ho] at hc <;> simp at hc <;> rw [hc]
    · exact Ne.symm hxamp
    · exact Ne.symm hxbar
  have hquad : ∀ x : Char, x = '&' ∨ x = '|' →
      hasSubstr (opJoin f rest) [x, x, x, x] = false :=
    fun x hx => opJoin_no_quad hx hf hrest
  have hamp : (∃ p ∈ rest, p.1 = ['&','&']) ∨ hasSubstr (opJoin f rest) ['&','&'] = false := by
    by_cases hA : ∃ p ∈ rest, p.1 = ['&','&']
    · exact Or.inl hA
    · refine Or.inr (opJoin_absent (by decide) (by decide) hf ?_)
      intro p hp
      refine ⟨?_, (hrest p hp).2.2⟩
      intro c hc
      rcases (hrest p hp).1 with ho | ho
      · exact absurd ⟨p, hp, ho⟩ hA
      · rw [ho] at hc; simp at hc; rw [hc]; decide
  have hbar : (∃ p ∈ rest, p.1 = ['|','|']) ∨ hasSubstr (opJoin f rest) ['|','|'] = false := by
    by_cases hB : ∃ p ∈ rest, p.1 = ['|','|']
    · exact Or.inl hB
    · refine Or.inr (opJoin_absent (by decide) (by decide) hf ?_)
      intro p hp
      refine ⟨?_, (hrest p hp).2.2⟩
      intro c hc
      rcases (hrest p hp).1 with ho | ho
      · rw [ho] at hc; simp at hc; rw [hc]; decide
      · exact absurd ⟨p, hp, ho⟩ hB
  unfold ConditionValidator.validate_operators
  rw [if_neg]
  · apply List.all_eq_true.2
    intro op hop
    simp only [ConditionValidator.OPERATORS, List.mem_cons, List.not_mem_nil, or_false] at hop
    rcases hop with rfl | rfl | rfl | rfl | rfl | rfl | rfl | rfl | rfl
    · rw [show (">" : String).data = ['>'] from rfl, habs '>' [] (by decide) (by decide)
        (by decide) (by decide)]
      rfl
    · rw [show ("<" : String).data = ['<'] from rfl, habs '<' [] (by decide) (by decide)
        (by decide) (by decide)]
      rfl
    · rw [show (">=" : String).data = ['>', '='] from rfl, habs '>' ['='] (by decide) (by decide)
        (by decide) (by decide)]
      rfl
    · rw [show ("<=" : String).data = ['<', '='] from rfl, habs '<' ['='] (by decide) (by decide)
        (by decide) (by decide)]
      rfl
    · rw [show ("==" : String).data = ['=', '='] from rfl, habs '=' ['='] (by decide) (by decide)
        (by decide) (by decide)]
      rfl
    · rw [show ("!=" : String).data = ['!', '='] from rfl, habs '!' ['='] (by decide) (by decide)
        (by decide) (by decide)]
      rfl
    · rw [show ("&&" : String).data = ['&', '&'] from rfl]
      rcases hamp with hA | hA
      · have := opJoin_has_spaced_op (f := f) hA
        rw [show (' ' :: (['&','&'] ++ [' '])) = [' ', '&', '&', ' '] from rfl] at this
        rw [show (' ' :: (("&&" : String).data ++ [' '])) = [' ', '&', '&', ' '] from rfl, this]
        simp
      · rw [hA]
        rfl
    · rw [show ("||" : String).data = ['|', '|'] from rfl]
      rcases hbar with hB | hB
      · have := opJoin_has_spaced_op (f := f) hB
        rw [show (' ' :: (['|','|'] ++ [' '])) = [' ', '|', '|', ' '] from rfl] at this
        rw [show (' ' :: (("||" : String).data ++ [' '])) = [' ', '|', '|', ' '] from rfl, this]
        simp
      · rw [hB]
        rfl
    · rw [show ("!" : String).data = ['!'] from rfl, habs '!' [] (by decide) (by decide)
        (by decide) (by decide)]
      rfl
  · simp only [ConditionValidator.invalid_combinations, List.any_cons, List.any_nil]
    rw [hquad '&' (Or.inl rfl), hquad '|' (Or.inr rfl),
      habs '!' ['!'] (by decide) (by decide) (by decide) (by decide),
      habs '<' ['<'] (by decide) (by decide) (by decide) (by decide),
      habs '>' ['>'] (by decide) (by decide) (by decide) (by decide),
      habs '=' ['=','>'] (by decide) (by decide) (by decide) (by decide),
      habs '<' ['=','='] (by decide) (by decide) (by decide) (by decide)]
    simp

theorem matchSplitAt_not_ws {c : Char} {t : List Char} (h : pyWs c = false) :
    matchSplitAt (c :: t) = none := by
  rw [matchSplitAt]
  rw [if_neg]
  simp [h]

theorem matchSplitAt_boundary {o J : List Char} (ho : o = ['&','&'] ∨ o = ['|','|'])
    (hJ : J.dropWhile pyWs = J) :
    matchSplitAt (' ' :: (o ++ ' ' :: J)) = some J := by
  rcases ho with rfl | rfl
  · show matchSplitAt (' ' :: '&' :: '&' :: ' ' :: J) = some J
    rw [matchSplitAt]
    rw [if_pos (show pyWs ' ' = true from rfl)]
    have hdrop : (' ' :: '&' :: '&' :: ' ' :: J).dropWhile pyWs = '&' :: '&' :: ' ' :: J := by
      rw [List.dropWhile_cons, if_pos (show pyWs ' ' = true from rfl), List.dropWhile_cons,
        if_neg (by decide)]
    rw [hdrop]
    show matchSplitAfterOp (' ' :: J) = some J
    rw [matchSplitAfterOp]
    rw [if_pos (show pyWs ' ' = true from rfl), List.dropWhile_cons,
      if_pos (show pyWs ' ' = true from rfl), hJ]
  · show matchSplitAt (' ' :: '|' :: '|' :: ' ' :: J) = some J
    rw [matchSplitAt]
    rw [if_pos (show pyWs ' ' = true from rfl)]
    have hdrop : (' ' :: '|' :: '|' :: ' ' :: J).dropWhile pyWs = '|' :: '|' :: ' ' :: J := by
      rw [List.dropWhile_cons, if_pos (show pyWs ' ' = true from rfl), List.dropWhile_cons,
        if_neg (by decide)]
    rw [hdrop]
    show matchSplitAfterOp (' ' :: J) = some J
    rw [matchSplitAfterOp]
    rw [if_pos (show pyWs ' ' = true from rfl), List.dropWhile_cons,
      if_pos (show pyWs ' ' = true from rfl), hJ]

theorem splitLogicalAux_clause : ∀ (cl : List Char), (∀ c ∈ cl, alphaDot c = true) →
    ∀ (fuel : Nat) (acc rest : List Char),
    splitLogicalAux (cl.length + fuel) acc (cl ++ rest) =
      splitLogicalAux fuel (cl.reverse ++ acc) rest := by
  intro cl
  induction cl with
  | nil => intro _ fuel acc rest; simp
  | cons c t ih =>
    intro hcl fuel acc rest
    have hm : matchSplitAt (c :: (t ++ rest)) = none :=
      matchSplitAt_not_ws (alphaDot_not_ws (hcl c (by simp)))
    show splitLogicalAux ((c :: t).length + fuel) acc (c :: (t ++ rest)) = _
    rw [show (c :: t).length + fuel = (t.length + fuel) + 1 from by simp [List.length_cons]; omega]
    rw [splitLogicalAux, hm]
    show splitLogicalAux (t.length + fuel) (c :: acc) (t ++ rest) = _
    rw [ih (fun x hx => hcl x (by simp [hx])) fuel (c :: acc) rest]
    simp [List.reverse_cons, List.append_assoc]

theorem splitLogicalAux_boundary {o J : List Char} (ho : o = ['&','&'] ∨ o = ['|','|'])
    (hJ : J.dropWhile pyWs = J) (fuel : Nat) (acc : List Char) :
    splitLogicalAux (fuel + 1) acc (' ' :: (o ++ ' ' :: J)) =
      acc.reverse :: splitLogicalAux fuel [] J := by
  have hm := matchSplitAt_boundary ho hJ
  rw [splitLogicalAux, hm]

theorem splitLogicalAux_opJoin : ∀ (rest : List (List Char × List Char)) (f : List Char),
    f ≠ [] → (∀ c ∈ f, alphaDot c = true) →
    (∀ p ∈ rest, (p.1 = ['&','&'] ∨ p.1 = ['|','|']) ∧ p.2 ≠ [] ∧
      (∀ c ∈ p.2, alphaDot c = true)) →
    ∀ (k : Nat) (acc : List Char),
    splitLogicalAux ((opJoin f rest).length + k) acc (opJoin f rest) =
      (acc.reverse ++ f) :: rest.map (·.2) := by
  intro rest
  induction rest with
  | nil =>
    intro f hfne hf _ k acc
    show splitLogicalAux (f.length + k) acc f = [acc.reverse ++ f]
    have hc := splitLogicalAux_clause f hf k acc []
    rw [List.append_nil] at hc
    rw [hc, splitLogicalAux]
    simp
  | cons p rest ih =>
    intro f hfne hf hrest k acc
    obtain ⟨o, cl⟩ := p
    obtain ⟨ho, hclne, hclch⟩ := hrest (o, cl) (by simp)
    show splitLogicalAux ((f ++ (' ' :: (o ++ ' ' :: opJoin cl rest))).length + k) acc
      (f ++ (' ' :: (o ++ ' ' :: opJoin cl rest))) = (acc.reverse ++ f) :: cl :: rest.map (·.2)
    rw [show (f ++ (' ' :: (o ++ ' ' :: opJoin cl rest))).length + k
        = f.length + ((' ' :: (o ++ ' ' :: opJoin cl rest)).length + k) from by
      simp
      omega]
    rw [splitLogicalAux_clause f hf _ acc _]
    rw [show (' ' :: (o ++ ' ' :: opJoin cl rest)).length + k
        = ((opJoin cl rest).length + (o.length + 1 + k)) + 1 from by
      simp
      omega]
    rw [splitLogicalAux_boundary ho (opJoin_dropWhile hclne hclch) _ _]
    rw [ih cl hclne hclch (fun q hq => hrest q (by simp [hq])) (o.length + 1 + k) []]
    simp

theorem splitLogical_opJoin {f : List Char} {rest : List (List Char × List Char)}
    (hfne : f ≠ []) (hf : ∀ c ∈ f, alphaDot c = true)
    (hrest : ∀ p ∈ rest, (p.1 = ['&','&'] ∨ p.1 = ['|','|']) ∧ p.2 ≠ [] ∧
      (∀ c ∈ p.2, alphaDot c = true)) :
    splitLogical (opJoin f rest) = f :: rest.map (·.2) := by
  unfold splitLogical
  have h := splitLogicalAux_opJoin rest f hfne hf hrest 0 []
  rw [Nat.add_zero] at h
  rw [h]
  simp

theorem validate_components_opJoin {f : List Char} {rest : List (List Char × List Char)}
    (hfne : f ≠ []) (hf : ∀ c ∈ f, alphaDot c = true)
    (hfc : ConditionValidator.componentOk f = true)
    (hrest : ∀ p ∈ rest, (p.1 = ['&','&'] ∨ p.1 = ['|','|']) ∧ p.2 ≠ [] ∧
      (∀ c ∈ p.2, alphaDot c = true))
    (hrc : ∀ p ∈ rest, ConditionValidator.componentOk p.2 = true) :
    ConditionValidator.validate_components (opJoin f rest) = true := by
  unfold ConditionValidator.validate_components
  rw [splitLogical_opJoin hfne hf hrest]
  apply List.all_eq_true.2
  intro x hx
  rcases List.mem_cons.1 hx with rfl | hx
  · exact hfc
  · rcases List.mem_map.1 hx with ⟨p, hp, rfl⟩
    exact hrc p hp

theorem getLast?_append_right {l1 l2 : List Char} (h : l2 ≠ []) :
    (l1 ++ l2).getLast? = l2.getLast? := by
  rw [← List.head?_reverse, ← List.head?_reverse, List.reverse_append]
  obtain ⟨c, t, rfl⟩ := List.exists_cons_of_ne_nil h
  rcases hr : (c :: t).reverse with _ | ⟨d, r⟩
  · have := congrArg List.length hr
    simp at this
  · rfl

theorem opJoin_getLast_alphaDot : ∀ (rest : List (List Char × List Char)) (f : List Char),
    f ≠ [] → (∀ c ∈ f, alphaDot c = true) →
    (∀ p ∈ rest, p.2 ≠ [] ∧ (∀ c ∈ p.2, alphaDot c = true)) →
    ∀ x, (opJoin f rest).getLast? = some x → alphaDot x = true := by
  intro rest
  induction rest with
  | nil =>
    intro f hfne hf _ x hx
    have hx2 : f.reverse.head? = some x := by
      rw [List.head?_reverse]
      exact hx
    rcases he : f.reverse with _ | ⟨c, t⟩
    · rw [he] at hx2
      simp at hx2
    · rw [he, List.head?_cons] at hx2
      have e := Option.some.inj hx2
      apply hf
      apply List.mem_reverse.1
      rw [he, ← e]
      simp
  | cons p rest ih =>
    intro f hfne hf hrest x hx
    obtain ⟨o, cl⟩ := p
    have hJne : opJoin cl rest ≠ [] := opJoin_ne_nil rest (hrest (o, cl) (by simp)).1
    have hre : opJoin f ((o, cl) :: rest) = (f ++ ' ' :: (o ++ [' '])) ++ opJoin cl rest := by
      show f ++ ' ' :: (o ++ ' ' :: opJoin cl rest) = _
      simp
    rw [hre, getLast?_append_right hJne] at hx
    exact ih cl (hrest (o, cl) (by simp)).1 (hrest (o, cl) (by simp)).2
      (fun q hq => hrest q (by simp [hq])) x hx

/-- The full validator accepts every string of the shape
`clause (op clause)*` built from letter-and-dot clauses that pass the
component check, with `&&`/`||` operators. -/
theorem validate_condition_opJoin {f : List Char} {rest : List (List Char × List Char)}
    (hfne : f ≠ []) (hf : ∀ c ∈ f, alphaDot c = true) (hfdot : '.' ∈ f)
    (hfc : ConditionValidator.componentOk f = true)
    (hrest : ∀ p ∈ rest, (p.1 = ['&','&'] ∨ p.1 = ['|','|']) ∧ p.2 ≠ [] ∧
      (∀ c ∈ p.2, alphaDot c = true))
    (hrc : ∀ p ∈ rest, ConditionValidator.componentOk p.2 = true) :
    ConditionValidator.validate_condition (String.mk (opJoin f rest)) = (true, "") := by
  have hlast : ∀ x, (opJoin f rest).getLast? = some x → pyWs x = false := fun x hx =>
    alphaDot_not_ws (opJoin_getLast_alphaDot rest f hfne hf
      (fun p hp => ⟨(hrest p hp).2.1, (hrest p hp).2.2⟩) x hx)
  have hhead : ∀ x, (opJoin f rest).head? = some x → pyWs x = false := by
    intro x hx
    rw [opJoin_head rest hfne] at hx
    obtain ⟨c0, t, rfl⟩ := List.exists_cons_of_ne_nil hfne
    rw [List.head?_cons] at hx
    have e := Option.some.inj hx
    rw [← e]
    exact alphaDot_not_ws (hf c0 (by simp))
  have hstrip : pyStrip (opJoin f rest) = opJoin f rest :=
    pyStrip_eq_self_of_ends hhead hlast
  have hdot : '.' ∈ opJoin f rest := by
    cases rest with
    | nil => exact hfdot
    | cons p r =>
      obtain ⟨o, cl⟩ := p
      show '.' ∈ f ++ ' ' :: (o ++ ' ' :: opJoin cl r)
      exact List.mem_append.2 (Or.inl hfdot)
  unfold ConditionValidator.validate_condition
  rw [show (String.mk (opJoin f rest)).data = opJoin f rest from rfl]
  rw [hstrip]
  rw [if_neg]
  · simp only [check_basic_syntax_opJoin hf hrest, validate_operators_opJoin hf hrest,
      validate_parentheses_opJoin hf hrest, validate_components_opJoin hfne hf hfc hrest hrc]
    rfl
  · intro hc
    rw [Bool.or_eq_true] at hc
    rcases hc with hc | hc
    · exact opJoin_ne_nil rest hfne (by simpa using hc)
    · exact absurd (of_decide_eq_true hc ▸ hdot) (by decide)

theorem basicPair_clause {c s : String} (h : ConditionValidator.isBasicPair c s = true) :
    (c ++ "." ++ s).data ≠ [] ∧ (∀ x ∈ (c ++ "." ++ s).data, alphaDot x = true) ∧
    '.' ∈ (c ++ "." ++ s).data ∧ ConditionValidator.componentOk (c ++ "." ++ s).data = true := by
  unfold ConditionValidator.isBasicPair at h
  rcases hl : ConditionValidator.lookupCategory c with _ | subs
  · rw [hl] at h
    simp at h
  · rw [hl] at h
    unfold ConditionValidator.lookupCategory at hl
    rcases hfind : ConditionValidator.BASIC_CONDITIONS.find? (fun p => p.1 == c) with _ | pr
    · rw [hfind] at hl
      simp at hl
    · rw [hfind] at hl
      have hsubs : pr.2 = subs := by simpa using hl
      have hmem := List.mem_of_find?_eq_some hfind
      have hbeq := List.find?_some hfind
      have hc : pr.1 = c := by simpa using hbeq
      obtain ⟨kv, hkv, hkvs⟩ := List.any_eq_true.1 h
      have hs : kv.1 = s := by simpa using hkvs
      have hv := vocabFacts pr hmem kv (by rw [hsubs]; exact hkv)
      rw [hc, hs] at hv
      exact hv

/-- Builds `(op, category.sub)` pairs onto an existing builder through the
`add_logical_operator` / `add_condition_part` interaction sequence. -/
def buildClauses (b : ConditionBuilder) : List (String × (String × String)) → ConditionBuilder
  | [] => b
  | (op, cs) :: rest =>
    buildClauses ((b.add_logical_operator op).add_condition_part cs.1 cs.2 "" "") rest

/-- A builder session: one first clause, then operator/clause pairs, each
clause a bare `category.subcategory` (no comparison operator or value). -/
def builderOf (first : String × String) (rest : List (String × (String × String))) :
    ConditionBuilder :=
  buildClauses (ConditionBuilder.add_condition_part {} first.1 first.2 "" "") rest

def opFlat : List (String × (String × String)) → List String
  | [] => []
  | (op, cs) :: rest => op :: (cs.1 ++ "." ++ cs.2) :: opFlat rest

theorem buildClauses_parts : ∀ (rest : List (String × (String × String))) (b : ConditionBuilder),
    (buildClauses b rest).condition_parts = b.condition_parts ++ opFlat rest := by
  intro rest
  induction rest with
  | nil => intro b; simp [buildClauses, opFlat]
  | cons p rest ih =>
    intro b
    obtain ⟨op, cs⟩ := p
    show (buildClauses ((b.add_logical_operator op).add_condition_part cs.1 cs.2 "" "") rest).condition_parts = _
    rw [ih]
    show ((b.condition_parts ++ [op]) ++ [cs.1 ++ "." ++ cs.2]) ++ opFlat rest =
      b.condition_parts ++ (op :: (cs.1 ++ "." ++ cs.2) :: opFlat rest)
    simp

theorem joinSpaceChars_opFlat : ∀ (rest : List (String × (String × String))) (f : List Char),
    joinSpaceChars (f :: (opFlat rest).map String.data) =
      opJoin f (rest.map (fun p => (p.1.data, (p.2.1 ++ "." ++ p.2.2).data))) := by
  intro rest
  induction rest with
  | nil => intro f; rfl
  | cons p rest ih =>
    intro f
    obtain ⟨op, cs⟩ := p
    show joinSpaceChars (f :: op.data :: (cs.1 ++ "." ++ cs.2).data ::
      (opFlat rest).map String.data) = _
    simp only [joinSpaceChars]
    rw [ih (cs.1 ++ "." ++ cs.2).data]
    rfl

theorem builderOf_condition (first : String × String) (rest : List (String × (String × String))) :
    (builderOf first rest).get_condition = String.mk (opJoin (first.1 ++ "." ++ first.2).data
      (rest.map (fun p => (p.1.data, (p.2.1 ++ "." ++ p.2.2).data)))) := by
  unfold ConditionBuilder.get_condition joinSpace
  rw [show (builderOf first rest).condition_parts
      = (first.1 ++ "." ++ first.2) :: opFlat rest from by
    unfold builderOf
    rw [buildClauses_parts]
    rfl]
  rw [show ((first.1 ++ "." ++ first.2) :: opFlat rest).map String.data
      = (first.1 ++ "." ++ first.2).data :: (opFlat rest).map String.data from rfl]
  rw [joinSpaceChars_opFlat]

/-- The three builder interactions the claim covers beyond bare global
clauses, each of which its own validator then rejects. -/
def c3druid : ConditionBuilder :=
  ConditionBuilder.add_condition_part (ConditionBuilder.set_class {} "Druid") "Druid" "solar" "" ""

def c3cmp : ConditionBuilder :=
  ConditionBuilder.add_condition_part {} "player" "health" ">" "30"

def c3neg : ConditionBuilder :=
  ConditionBuilder.add_condition_part
    (ConditionBuilder.add_not_operator
      (ConditionBuilder.add_condition_part {} "player" "moving" "" ""))
    "player" "casting" "" ""

set_option maxRecDepth 100000 in
/-- **C3**, literal reading, refuted on three of the builder's advertised
interactions: a class-specific clause offered after `set_class "Druid"`
(`Druid.solar`), a comparison clause (`player.health > 30`), and negation
insertion (`player.moving ! player.casting`) all come back invalid from
`validate` — the component check knows no class categories, keeps the
trailing space when it strips a comparison suffix, and chokes on the
free-standing `!` token. -/
theorem builder_validate_counterexample :
    ("Druid" ∈ (ConditionBuilder.set_class {} "Druid").get_available_categories ∧
      ((ConditionBuilder.set_class {} "Druid").get_conditions_for_category "Druid").any
        (fun kv => kv.1 == "solar") = true ∧
      c3druid.validate = (false, "Invalid condition components")) ∧
    (c3cmp.get_condition = "player.health > 30" ∧
      c3cmp.validate = (false, "Invalid condition components")) ∧
    (c3neg.get_condition = "player.moving ! player.casting" ∧
      c3neg.validate = (false, "Invalid condition components")) := by
  decide

/-- **C3** (amended).  Every condition the builder produces from recognized
`category.subcategory` pairs of the global catalog — any number of bare
clauses joined by explicit `&&`/`||` operators, with no class-specific
category, no comparison operator/value, and no negation insertion — passes
`validate` with `(True, "")`. -/
theorem builder_basic_clauses_validate (first : String × String)
    (rest : List (String × (String × String)))
    (h1 : ConditionValidator.isBasicPair first.1 first.2 = true)
    (h2 : ∀ p ∈ rest, (p.1 = "&&" ∨ p.1 = "||") ∧
      ConditionValidator.isBasicPair p.2.1 p.2.2 = true) :
    (builderOf first rest).validate = (true, "") := by
  unfold ConditionBuilder.validate
  rw [builderOf_condition]
  obtain ⟨hfne, hfch, hfdot, hfc⟩ := basicPair_clause h1
  apply validate_condition_opJoin hfne hfch hfdot hfc
  · intro p hp
    rcases List.mem_map.1 hp with ⟨q, hq, rfl⟩
    obtain ⟨hop, hbp⟩ := h2 q hq
    obtain ⟨hne, hch, _, _⟩ := basicPair_clause hbp
    refine ⟨?_, hne, hch⟩
    rcases hop with hop | hop <;> rw [hop]
    · exact Or.inl rfl
    · exact Or.inr rfl
  · intro p hp
    rcases List.mem_map.1 hp with ⟨q, hq, rfl⟩
    exact (basicPair_clause (h2 q hq).2).2.2.2

theorem builder_basic_clauses_validate_witness :
    (builderOf ("player", "health.actual")
      [("&&", ("target", "exists")), ("||", ("toggle", "aoe"))]).validate = (true, "") :=
  builder_basic_clauses_validate ("player", "health.actual")
    [("&&", ("target", "exists")), ("||", ("toggle", "aoe"))] (by decide) (by decide)
